import Mathlib

/-!
Verification development for the MMD Tools model/motion file pipeline.

The operator layer (`mmd_tools/operators/fileio.py`) is embedded directly.
The binary codec and scene-construction core are modelled from the
specification where noted, since only their callers appear in the
operator layer.
-/

/-- Modelled from the spec: fixed-width little-endian integer fields of the
binary stream codec. Little-endian fixed-width encoding of a natural
number into `w` bytes. -/
def encNatLE : Nat → Nat → List Nat
  | 0, _ => []
  | w + 1, x => x % 256 :: encNatLE w (x / 256)

/-- Little-endian fixed-width decoding of `w` bytes into a natural number,
returning the remaining stream. -/
def decNatLE : Nat → List Nat → Option (Nat × List Nat)
  | 0, r => some (0, r)
  | _ + 1, [] => none
  | w + 1, b :: r =>
    match decNatLE w r with
    | some (m, r2) => some (b + 256 * m, r2)
    | none => none

theorem decNatLE_encNatLE (w x : Nat) (r : List Nat) (h : x < 256 ^ w) :
    decNatLE w (encNatLE w x ++ r) = some (x, r) := by
  induction w generalizing x with
  | zero =>
    simp only [Nat.pow_zero, Nat.lt_one_iff] at h
    simp [encNatLE, decNatLE, h]
  | succ k ih =>
    have h2 : (256 : Nat) ^ (k + 1) = 256 ^ k * 256 := Nat.pow_succ 256 k
    have hdiv : x / 256 < 256 ^ k := by omega
    show (match decNatLE k (encNatLE k (x / 256) ++ r) with
          | some (m, r2) => some (x % 256 + 256 * m, r2)
          | none => none) = some (x, r)
    rw [ih (x / 256) hdiv]
    show some (x % 256 + 256 * (x / 256), r) = some (x, r)
    rw [(by omega : x % 256 + 256 * (x / 256) = x)]

/-- Modelled from the spec: length prefixes of the binary stream codec.
Self-delimiting variable-width encoding of a natural number (7 data bits
per byte, high bit marks continuation). -/
def encVarNat (n : Nat) : List Nat :=
  if n < 128 then [n]
  else (n % 128 + 128) :: encVarNat (n / 128)
termination_by n
decreasing_by exact Nat.div_lt_self (by omega) (by omega)

/-- Decoding of `encVarNat`, returning the remaining stream. -/
def decVarNat : List Nat → Option (Nat × List Nat)
  | [] => none
  | b :: r =>
    if b < 128 then some (b, r)
    else
      match decVarNat r with
      | some (m, r2) => some (b - 128 + 128 * m, r2)
      | none => none

theorem decVarNat_encVarNat (n : Nat) (r : List Nat) :
    decVarNat (encVarNat n ++ r) = some (n, r) := by
  induction n using Nat.strong_induction_on with
  | _ n ih =>
    by_cases h : n < 128
    · rw [encVarNat]
      simp [h, decVarNat]
    · rw [encVarNat]
      simp only [if_neg h, List.cons_append, decVarNat]
      have h128 : ¬ n % 128 + 128 < 128 := by omega
      rw [if_neg h128, ih (n / 128) (Nat.div_lt_self (by omega) (by omega))]
      show some (n % 128 + 128 - 128 + 128 * (n / 128), r) = some (n, r)
      rw [(by omega : n % 128 + 128 - 128 + 128 * (n / 128) = n)]

/-- Modelled from the spec: integer fields of the binary stream codec. Signed
integers serialized as a sign byte followed by a magnitude. -/
def encInt (i : Int) : List Nat :=
  encVarNat (if i < 0 then 1 else 0) ++ encVarNat i.natAbs

/-- Decoding of `encInt`, returning the remaining stream. -/
def decInt (bs : List Nat) : Option (Int × List Nat) :=
  match decVarNat bs with
  | some (s, r1) =>
    match decVarNat r1 with
    | some (a, r2) => some (if s = 1 then -(a : Int) else (a : Int), r2)
    | none => none
  | none => none

theorem decInt_encInt (i : Int) (r : List Nat) :
    decInt (encInt i ++ r) = some (i, r) := by
  unfold encInt decInt
  simp only [List.append_assoc, decVarNat_encVarNat]
  by_cases h : i < 0
  · simp only [if_pos h, if_pos rfl]
    rw [(by omega : -((i.natAbs : Int)) = i)]
    simp only [if_true]
  · simp only [if_neg h, if_neg (by omega : ¬ (0 : Nat) = 1)]
    rw [(by omega : ((i.natAbs : Int)) = i)]

/-- Modelled from the spec: float scalar fields of the binary stream codec.
Scalar fields of the document model: a raw (numerator, denominator) pair,
the exact-value abstraction of a binary float field read and written
bit-for-bit by the codec. Its mathematical value is `scalarVal`. -/
abbrev Scalar := Int × Int

/-- The rational value a scalar denotes. -/
def scalarVal (p : Scalar) : ℚ := (p.1 : ℚ) / (p.2 : ℚ)

/-- Serialize one scalar. -/
def encScalar (p : Scalar) : List Nat := encInt p.1 ++ encInt p.2

/-- Decode one scalar, returning the remaining stream. -/
def decScalar (bs : List Nat) : Option (Scalar × List Nat) :=
  match decInt bs with
  | some (a, r1) =>
    match decInt r1 with
    | some (b, r2) => some ((a, b), r2)
    | none => none
  | none => none

theorem decScalar_encScalar (p : Scalar) (r : List Nat) :
    decScalar (encScalar p ++ r) = some (p, r) := by
  unfold encScalar decScalar
  simp only [List.append_assoc, decInt_encInt]

/-- Modelled from the spec: signed integers of byte width 1/2/4.
Representability of a signed table index at byte width `w`. -/
def reprW (w : Nat) (i : Int) : Bool :=
  decide (-(128 * (256 : Int) ^ (w - 1)) ≤ i) && decide (i < 128 * (256 : Int) ^ (w - 1))

/-- Modelled from the spec: the narrowest width in {1,2,4} whose signed range
covers every index used in the table. The writer's index byte-width choice
for a table whose maximum in-use index is `maxIdx`. -/
def chooseWidth (maxIdx : Nat) : Nat :=
  if maxIdx ≤ 127 then 1 else if maxIdx ≤ 32767 then 2 else 4

/-- Modelled from the spec: index fields of the binary stream codec.
Fixed-width little-endian two's-complement encoding of a signed table
index. -/
def encIdx (w : Nat) (i : Int) : List Nat :=
  encNatLE w (i % (256 : Int) ^ w).toNat

/-- Decoding of a signed table index, always performed at the
header-declared width `w` (never inferred from the data). -/
def decIdx (w : Nat) (bs : List Nat) : Option (Int × List Nat) :=
  match decNatLE w bs with
  | some (v, r) =>
    some (if v < 128 * 256 ^ (w - 1) then (v : Int) else (v : Int) - (256 : Int) ^ w, r)
  | none => none

theorem decIdx_encIdx (w : Nat) (i : Int) (r : List Nat) (hw : 0 < w)
    (h : reprW w i = true) : decIdx w (encIdx w i ++ r) = some (i, r) := by
  obtain ⟨w', rfl⟩ : ∃ w', w = w' + 1 := ⟨w - 1, by omega⟩
  simp only [reprW, Bool.and_eq_true, decide_eq_true_eq, Nat.add_sub_cancel] at h
  set M : Int := (256 : Int) ^ (w' + 1) with hMdef
  set H : Int := 128 * (256 : Int) ^ w' with hHdef
  have hMH : M = 2 * H := by rw [hMdef, hHdef, pow_succ]; ring
  have hHpos : 0 < H := by positivity
  have hMpos : 0 < M := by omega
  have hcastM : (((256 : Nat) ^ (w' + 1) : Nat) : Int) = M := by push_cast; rfl
  have hcastH : ((128 * 256 ^ w' : Nat) : Int) = H := by push_cast; rfl
  have hemod1 : 0 ≤ i % M := Int.emod_nonneg i (by omega)
  have hemod2 : i % M < M := Int.emod_lt_of_pos i hMpos
  have hval : (0 ≤ i ∧ i % M = i) ∨ (i < 0 ∧ i % M = i + M) := by
    by_cases hi : 0 ≤ i
    · exact Or.inl ⟨hi, Int.emod_eq_of_lt hi (by omega)⟩
    · refine Or.inr ⟨by omega, ?_⟩
      have hshift : (i + M * 1) % M = i % M := Int.add_mul_emod_self_left i M 1
      rw [mul_one] at hshift
      rw [← hshift]
      exact Int.emod_eq_of_lt (by omega) (by omega)
  unfold encIdx decIdx
  rw [decNatLE_encNatLE _ _ _ (by omega)]
  show some (if (i % M).toNat < 128 * 256 ^ w' then (((i % M).toNat : Int))
             else (((i % M).toNat : Int)) - (256 : Int) ^ (w' + 1), r) = some (i, r)
  by_cases hv : (i % M).toNat < 128 * 256 ^ w'
  · rw [if_pos hv, (by omega : (((i % M).toNat : Int)) = i)]
  · rw [if_neg hv, (by omega : (((i % M).toNat : Int)) - (256 : Int) ^ (w' + 1) = i)]

/-- Modelled from the spec: count-prefixed tables of the binary layout.
Serialize a table: element count, then each element in order. -/
def encListWith (f : α → List Nat) (xs : List α) : List Nat :=
  encVarNat xs.length ++ (xs.map f).flatten

/-- Decode `k` consecutive elements. -/
def decListN (dec : List Nat → Option (α × List Nat)) :
    Nat → List Nat → Option (List α × List Nat)
  | 0, r => some ([], r)
  | k + 1, r =>
    match dec r with
    | some (x, r2) =>
      match decListN dec k r2 with
      | some (xs, r3) => some (x :: xs, r3)
      | none => none
    | none => none

/-- Decode a table: element count, then that many elements. -/
def decListWith (dec : List Nat → Option (α × List Nat)) (bs : List Nat) :
    Option (List α × List Nat) :=
  match decVarNat bs with
  | some (k, r) => decListN dec k r
  | none => none

theorem decListN_encListWith (f : α → List Nat)
    (dec : List Nat → Option (α × List Nat)) (xs : List α) (r : List Nat)
    (hrt : ∀ x ∈ xs, ∀ r2, dec (f x ++ r2) = some (x, r2)) :
    decListN dec xs.length ((xs.map f).flatten ++ r) = some (xs, r) := by
  induction xs with
  | nil => simp [decListN]
  | cons x t ih =>
    show decListN dec (t.length + 1) ((f x ++ (t.map f).flatten) ++ r) = some (x :: t, r)
    rw [List.append_assoc]
    show (match dec (f x ++ ((t.map f).flatten ++ r)) with
          | some (y, r2) =>
            match decListN dec t.length r2 with
            | some (xs, r3) => some (y :: xs, r3)
            | none => none
          | none => none) = some (x :: t, r)
    rw [hrt x (by simp) _]
    show (match decListN dec t.length ((t.map f).flatten ++ r) with
          | some (xs, r3) => some (x :: xs, r3)
          | none => none) = some (x :: t, r)
    rw [ih (fun y hy r2 => hrt y (by simp [hy]) r2)]

theorem decListWith_encListWith (f : α → List Nat)
    (dec : List Nat → Option (α × List Nat)) (xs : List α) (r : List Nat)
    (hrt : ∀ x ∈ xs, ∀ r2, dec (f x ++ r2) = some (x, r2)) :
    decListWith dec (encListWith f xs ++ r) = some (xs, r) := by
  unfold encListWith decListWith
  rw [List.append_assoc, decVarNat_encVarNat]
  exact decListN_encListWith f dec xs r hrt

/-- Modelled from the spec: length-prefixed string fields of the codec.
Length-prefixed byte-string fields (names, comments, texture paths). -/
def encBytes (s : List Nat) : List Nat := encListWith (encNatLE 1) s

/-- Decode a length-prefixed byte string. -/
def decBytes (bs : List Nat) : Option (List Nat × List Nat) :=
  decListWith (decNatLE 1) bs

theorem decBytes_encBytes (s : List Nat) (r : List Nat) (h : ∀ b ∈ s, b < 256) :
    decBytes (encBytes s ++ r) = some (s, r) := by
  unfold encBytes decBytes
  exact decListWith_encListWith _ _ s r
    (fun b hb r2 => decNatLE_encNatLE 1 b r2 (by simpa using h b hb))

/-- Serialize a pair of scalars (UV coordinates). -/
def encVec2 (p : Scalar × Scalar) : List Nat := encScalar p.1 ++ encScalar p.2

/-- Decode a pair of scalars. -/
def decVec2 (bs : List Nat) : Option ((Scalar × Scalar) × List Nat) :=
  match decScalar bs with
  | some (a, r1) =>
    match decScalar r1 with
    | some (b, r2) => some ((a, b), r2)
    | none => none
  | none => none

/-- Serialize a scalar triple (position, normal, sizes). -/
def encVec3 (p : Scalar × Scalar × Scalar) : List Nat := encScalar p.1 ++ encVec2 p.2

/-- Decode a scalar triple. -/
def decVec3 (bs : List Nat) : Option ((Scalar × Scalar × Scalar) × List Nat) :=
  match decScalar bs with
  | some (a, r1) =>
    match decVec2 r1 with
    | some (b, r2) => some ((a, b), r2)
    | none => none
  | none => none

/-- Serialize a scalar quadruple (RGBA colors). -/
def encVec4 (p : Scalar × Scalar × Scalar × Scalar) : List Nat :=
  encScalar p.1 ++ encVec3 p.2

/-- Decode a scalar quadruple. -/
def decVec4 (bs : List Nat) : Option ((Scalar × Scalar × Scalar × Scalar) × List Nat) :=
  match decScalar bs with
  | some (a, r1) =>
    match decVec3 r1 with
    | some (b, r2) => some ((a, b), r2)
    | none => none
  | none => none

theorem decVec2_encVec2 (p : Scalar × Scalar) (r : List Nat) :
    decVec2 (encVec2 p ++ r) = some (p, r) := by
  unfold encVec2 decVec2
  simp only [List.append_assoc, decScalar_encScalar]

theorem decVec3_encVec3 (p : Scalar × Scalar × Scalar) (r : List Nat) :
    decVec3 (encVec3 p ++ r) = some (p, r) := by
  unfold encVec3 decVec3
  simp only [List.append_assoc, decScalar_encScalar, decVec2_encVec2]

theorem decVec4_encVec4 (p : Scalar × Scalar × Scalar × Scalar) (r : List Nat) :
    decVec4 (encVec4 p ++ r) = some (p, r) := by
  unfold encVec4 decVec4
  simp only [List.append_assoc, decScalar_encScalar, decVec3_encVec3]

/-- Modelled from the spec: the Vertex record of the Model Document Model. A
vertex of the model document: position, normal, UV, up to four (bone
index, weight) influences, and an edge-scale factor. -/
structure PVertex where
  position : Scalar × Scalar × Scalar
  normal : Scalar × Scalar × Scalar
  uv : Scalar × Scalar
  weights : List (Int × Scalar)
  edgeScale : Scalar
  deriving DecidableEq

/-- Modelled from the spec: the Material record of the Model Document Model. A
material of the model document, applying to `faceCount` faces. -/
structure PMaterial where
  name : List Nat
  nameE : List Nat
  diffuse : Scalar × Scalar × Scalar × Scalar
  specular : Scalar × Scalar × Scalar
  edgeSize : Scalar
  texture : Int
  sphereTexture : Int
  sphereMode : Nat
  toon : Int
  faceCount : Nat
  deriving DecidableEq

/-- Modelled from the spec: the Bone record of the Model Document Model. A
bone of the model document. `parent` is a weak reference into the bone
table, −1 meaning root. -/
structure PBone where
  name : List Nat
  nameE : List Nat
  position : Scalar × Scalar × Scalar
  parent : Int
  transformOrder : Nat
  flags : Nat
  deriving DecidableEq

/-- Modelled from the spec: the Morph record of the Model Document Model. A
morph of the model document with category-dependent offsets. -/
structure PMorph where
  name : List Nat
  nameE : List Nat
  category : Nat
  offsets : List (Int × (Scalar × Scalar × Scalar))
  deriving DecidableEq

/-- Modelled from the spec: display frames of the Model Document Model. A
display frame, holding weak bone references. -/
structure PDisplayFrame where
  name : List Nat
  nameE : List Nat
  items : List Int
  deriving DecidableEq

/-- Modelled from the spec: the RigidBody record of the Model Document Model.
A rigid-body physics descriptor. -/
structure PRigidBody where
  name : List Nat
  nameE : List Nat
  bone : Int
  shape : Nat
  size : Scalar × Scalar × Scalar
  mass : Scalar
  deriving DecidableEq

/-- Modelled from the spec: the Joint record of the Model Document Model. A
joint physics descriptor linking two rigid bodies. -/
structure PJoint where
  name : List Nat
  nameE : List Nat
  rigidA : Int
  rigidB : Int
  deriving DecidableEq

/-- Modelled from the spec: the ModelDocument of the Model Document Model. The
root of a parsed model file. -/
structure ModelDocument where
  version : Scalar
  encoding : Nat
  name : List Nat
  nameE : List Nat
  comment : List Nat
  commentE : List Nat
  vertices : List PVertex
  faces : List (Nat × Nat × Nat)
  textures : List (List Nat)
  materials : List PMaterial
  bones : List PBone
  morphs : List PMorph
  displayFrames : List PDisplayFrame
  rigidBodies : List PRigidBody
  joints : List PJoint
  deriving DecidableEq

/-- Serialize one (bone index, weight) influence at bone-index width `bw`. -/
def encWeight (bw : Nat) (p : Int × Scalar) : List Nat :=
  encIdx bw p.1 ++ encScalar p.2

/-- Decode one influence at the header-declared bone-index width `bw`. -/
def decWeight (bw : Nat) (bs : List Nat) : Option ((Int × Scalar) × List Nat) :=
  match decIdx bw bs with
  | some (i, r1) =>
    match decScalar r1 with
    | some (s, r2) => some ((i, s), r2)
    | none => none
  | none => none

theorem decWeight_encWeight (bw : Nat) (p : Int × Scalar) (r : List Nat)
    (hw : 0 < bw) (h : reprW bw p.1 = true) :
    decWeight bw (encWeight bw p ++ r) = some (p, r) := by
  unfold encWeight decWeight
  simp only [List.append_assoc, decIdx_encIdx bw p.1 _ hw h, decScalar_encScalar]

/-- Serialize one vertex at bone-index width `bw`. -/
def encVertex (bw : Nat) (v : PVertex) : List Nat :=
  encVec3 v.position ++ encVec3 v.normal ++ encVec2 v.uv
    ++ encListWith (encWeight bw) v.weights ++ encScalar v.edgeScale

/-- Decode one vertex at the header-declared bone-index width `bw`. -/
def decVertex (bw : Nat) (bs : List Nat) : Option (PVertex × List Nat) :=
  match decVec3 bs with
  | some (pos, r1) =>
    match decVec3 r1 with
    | some (nrm, r2) =>
      match decVec2 r2 with
      | some (uv, r3) =>
        match decListWith (decWeight bw) r3 with
        | some (ws, r4) =>
          match decScalar r4 with
          | some (es, r5) => some (⟨pos, nrm, uv, ws, es⟩, r5)
          | none => none
        | none => none
      | none => none
    | none => none
  | none => none

theorem decVertex_encVertex (bw : Nat) (v : PVertex) (r : List Nat)
    (hw : 0 < bw) (h : ∀ p ∈ v.weights, reprW bw p.1 = true) :
    decVertex bw (encVertex bw v ++ r) = some (v, r) := by
  have hws : ∀ r2, decListWith (decWeight bw) (encListWith (encWeight bw) v.weights ++ r2)
      = some (v.weights, r2) := fun r2 =>
    decListWith_encListWith _ _ _ _ (fun p hp r3 => decWeight_encWeight bw p r3 hw (h p hp))
  unfold encVertex decVertex
  simp only [List.append_assoc, decVec3_encVec3, decVec2_encVec2, hws, decScalar_encScalar]

/-- Serialize one triangle at vertex-index width `vw`. -/
def encFace (vw : Nat) (f : Nat × Nat × Nat) : List Nat :=
  encIdx vw (f.1 : Int) ++ encIdx vw (f.2.1 : Int) ++ encIdx vw (f.2.2 : Int)

/-- Decode one triangle at the header-declared vertex-index width `vw`. -/
def decFace (vw : Nat) (bs : List Nat) : Option ((Nat × Nat × Nat) × List Nat) :=
  match decIdx vw bs with
  | some (a, r1) =>
    match decIdx vw r1 with
    | some (b, r2) =>
      match decIdx vw r2 with
      | some (c, r3) => some ((a.toNat, b.toNat, c.toNat), r3)
      | none => none
    | none => none
  | none => none

theorem decFace_encFace (vw : Nat) (f : Nat × Nat × Nat) (r : List Nat)
    (hw : 0 < vw) (h1 : reprW vw (f.1 : Int) = true)
    (h2 : reprW vw (f.2.1 : Int) = true) (h3 : reprW vw (f.2.2 : Int) = true) :
    decFace vw (encFace vw f ++ r) = some (f, r) := by
  unfold encFace decFace
  simp only [List.append_assoc, decIdx_encIdx vw _ _ hw h1, decIdx_encIdx vw _ _ hw h2,
    decIdx_encIdx vw _ _ hw h3, Int.toNat_natCast]

/-- Serialize one material at texture-index width `tw`. -/
def encMaterial (tw : Nat) (m : PMaterial) : List Nat :=
  encBytes m.name ++ encBytes m.nameE ++ encVec4 m.diffuse ++ encVec3 m.specular
    ++ encScalar m.edgeSize ++ encIdx tw m.texture ++ encIdx tw m.sphereTexture
    ++ encVarNat m.sphereMode ++ encIdx tw m.toon ++ encVarNat m.faceCount

/-- Decode one material at the header-declared texture-index width `tw`. -/
def decMaterial (tw : Nat) (bs : List Nat) : Option (PMaterial × List Nat) :=
  match decBytes bs with
  | some (nm, r1) =>
    match decBytes r1 with
    | some (nmE, r2) =>
      match decVec4 r2 with
      | some (dif, r3) =>
        match decVec3 r3 with
        | some (spc, r4) =>
          match decScalar r4 with
          | some (es, r5) =>
            match decIdx tw r5 with
            | some (tex, r6) =>
              match decIdx tw r6 with
              | some (sph, r7) =>
                match decVarNat r7 with
                | some (sm, r8) =>
                  match decIdx tw r8 with
                  | some (tn, r9) =>
                    match decVarNat r9 with
                    | some (fc, r10) => some (⟨nm, nmE, dif, spc, es, tex, sph, sm, tn, fc⟩, r10)
                    | none => none
                  | none => none
                | none => none
              | none => none
            | none => none
          | none => none
        | none => none
      | none => none
    | none => none
  | none => none

theorem decMaterial_encMaterial (tw : Nat) (m : PMaterial) (r : List Nat)
    (hw : 0 < tw) (hn : ∀ b ∈ m.name, b < 256) (hnE : ∀ b ∈ m.nameE, b < 256)
    (h1 : reprW tw m.texture = true) (h2 : reprW tw m.sphereTexture = true)
    (h3 : reprW tw m.toon = true) :
    decMaterial tw (encMaterial tw m ++ r) = some (m, r) := by
  unfold encMaterial decMaterial
  simp only [List.append_assoc, decBytes_encBytes _ _ hn, decBytes_encBytes _ _ hnE,
    decVec4_encVec4, decVec3_encVec3, decScalar_encScalar, decIdx_encIdx tw _ _ hw h1,
    decIdx_encIdx tw _ _ hw h2, decIdx_encIdx tw _ _ hw h3, decVarNat_encVarNat]

/-- Serialize one bone at bone-index width `bw`. -/
def encBone (bw : Nat) (b : PBone) : List Nat :=
  encBytes b.name ++ encBytes b.nameE ++ encVec3 b.position ++ encIdx bw b.parent
    ++ encVarNat b.transformOrder ++ encVarNat b.flags

/-- Decode one bone at the header-declared bone-index width `bw`. -/
def decBone (bw : Nat) (bs : List Nat) : Option (PBone × List Nat) :=
  match decBytes bs with
  | some (nm, r1) =>
    match decBytes r1 with
    | some (nmE, r2) =>
      match decVec3 r2 with
      | some (pos, r3) =>
        match decIdx bw r3 with
        | some (par, r4) =>
          match decVarNat r4 with
          | some (tord, r5) =>
            match decVarNat r5 with
            | some (fl, r6) => some (⟨nm, nmE, pos, par, tord, fl⟩, r6)
            | none => none
          | none => none
        | none => none
      | none => none
    | none => none
  | none => none

theorem decBone_encBone (bw : Nat) (b : PBone) (r : List Nat)
    (hw : 0 < bw) (hn : ∀ x ∈ b.name, x < 256) (hnE : ∀ x ∈ b.nameE, x < 256)
    (hp : reprW bw b.parent = true) :
    decBone bw (encBone bw b ++ r) = some (b, r) := by
  unfold encBone decBone
  simp only [List.append_assoc, decBytes_encBytes _ _ hn, decBytes_encBytes _ _ hnE,
    decVec3_encVec3, decIdx_encIdx bw _ _ hw hp, decVarNat_encVarNat]

/-- Serialize one morph offset (target index, delta) at target width `vw`. -/
def encOffset (vw : Nat) (o : Int × (Scalar × Scalar × Scalar)) : List Nat :=
  encIdx vw o.1 ++ encVec3 o.2

/-- Decode one morph offset at the header-declared width `vw`. -/
def decOffset (vw : Nat) (bs : List Nat) : Option ((Int × (Scalar × Scalar × Scalar)) × List Nat) :=
  match decIdx vw bs with
  | some (i, r1) =>
    match decVec3 r1 with
    | some (d, r2) => some ((i, d), r2)
    | none => none
  | none => none

theorem decOffset_encOffset (vw : Nat) (o : Int × (Scalar × Scalar × Scalar)) (r : List Nat)
    (hw : 0 < vw) (h : reprW vw o.1 = true) :
    decOffset vw (encOffset vw o ++ r) = some (o, r) := by
  unfold encOffset decOffset
  simp only [List.append_assoc, decIdx_encIdx vw _ _ hw h, decVec3_encVec3]

/-- Serialize one morph at offset-target width `vw`. -/
def encMorph (vw : Nat) (m : PMorph) : List Nat :=
  encBytes m.name ++ encBytes m.nameE ++ encVarNat m.category
    ++ encListWith (encOffset vw) m.offsets

/-- Decode one morph at the header-declared width `vw`. -/
def decMorph (vw : Nat) (bs : List Nat) : Option (PMorph × List Nat) :=
  match decBytes bs with
  | some (nm, r1) =>
    match decBytes r1 with
    | some (nmE, r2) =>
      match decVarNat r2 with
      | some (cat, r3) =>
        match decListWith (decOffset vw) r3 with
        | some (ofs, r4) => some (⟨nm, nmE, cat, ofs⟩, r4)
        | none => none
      | none => none
    | none => none
  | none => none

theorem decMorph_encMorph (vw : Nat) (m : PMorph) (r : List Nat)
    (hw : 0 < vw) (hn : ∀ x ∈ m.name, x < 256) (hnE : ∀ x ∈ m.nameE, x < 256)
    (ho : ∀ o ∈ m.offsets, reprW vw o.1 = true) :
    decMorph vw (encMorph vw m ++ r) = some (m, r) := by
  have hofs : ∀ r2, decListWith (decOffset vw) (encListWith (encOffset vw) m.offsets ++ r2)
      = some (m.offsets, r2) := fun r2 =>
    decListWith_encListWith _ _ _ _ (fun o hmem r3 => decOffset_encOffset vw o r3 hw (ho o hmem))
  unfold encMorph decMorph
  simp only [List.append_assoc, decBytes_encBytes _ _ hn, decBytes_encBytes _ _ hnE,
    decVarNat_encVarNat, hofs]

/-- Serialize one display frame at bone-index width `bw`. -/
def encDisplayFrame (bw : Nat) (f : PDisplayFrame) : List Nat :=
  encBytes f.name ++ encBytes f.nameE ++ encListWith (encIdx bw) f.items

/-- Decode one display frame at the header-declared bone-index width `bw`. -/
def decDisplayFrame (bw : Nat) (bs : List Nat) : Option (PDisplayFrame × List Nat) :=
  match decBytes bs with
  | some (nm, r1) =>
    match decBytes r1 with
    | some (nmE, r2) =>
      match decListWith (decIdx bw) r2 with
      | some (its, r3) => some (⟨nm, nmE, its⟩, r3)
      | none => none
    | none => none
  | none => none

theorem decDisplayFrame_encDisplayFrame (bw : Nat) (f : PDisplayFrame) (r : List Nat)
    (hw : 0 < bw) (hn : ∀ x ∈ f.name, x < 256) (hnE : ∀ x ∈ f.nameE, x < 256)
    (hi : ∀ i ∈ f.items, reprW bw i = true) :
    decDisplayFrame bw (encDisplayFrame bw f ++ r) = some (f, r) := by
  have hits : ∀ r2, decListWith (decIdx bw) (encListWith (encIdx bw) f.items ++ r2)
      = some (f.items, r2) := fun r2 =>
    decListWith_encListWith _ _ _ _ (fun i hmem r3 => decIdx_encIdx bw i r3 hw (hi i hmem))
  unfold encDisplayFrame decDisplayFrame
  simp only [List.append_assoc, decBytes_encBytes _ _ hn, decBytes_encBytes _ _ hnE, hits]

/-- Serialize one rigid body at bone-index width `bw`. -/
def encRigidBody (bw : Nat) (rb : PRigidBody) : List Nat :=
  encBytes rb.name ++ encBytes rb.nameE ++ encIdx bw rb.bone ++ encVarNat rb.shape
    ++ encVec3 rb.size ++ encScalar rb.mass

/-- Decode one rigid body at the header-declared bone-index width `bw`. -/
def decRigidBody (bw : Nat) (bs : List Nat) : Option (PRigidBody × List Nat) :=
  match decBytes bs with
  | some (nm, r1) =>
    match decBytes r1 with
    | some (nmE, r2) =>
      match decIdx bw r2 with
      | some (bn, r3) =>
        match decVarNat r3 with
        | some (sh, r4) =>
          match decVec3 r4 with
          | some (sz, r5) =>
            match decScalar r5 with
            | some (ms, r6) => some (⟨nm, nmE, bn, sh, sz, ms⟩, r6)
            | none => none
          | none => none
        | none => none
      | none => none
    | none => none
  | none => none

theorem decRigidBody_encRigidBody (bw : Nat) (rb : PRigidBody) (r : List Nat)
    (hw : 0 < bw) (hn : ∀ x ∈ rb.name, x < 256) (hnE : ∀ x ∈ rb.nameE, x < 256)
    (hb : reprW bw rb.bone = true) :
    decRigidBody bw (encRigidBody bw rb ++ r) = some (rb, r) := by
  unfold encRigidBody decRigidBody
  simp only [List.append_assoc, decBytes_encBytes _ _ hn, decBytes_encBytes _ _ hnE,
    decIdx_encIdx bw _ _ hw hb, decVarNat_encVarNat, decVec3_encVec3, decScalar_encScalar]

/-- Serialize one joint at rigid-body-index width `rw`. -/
def encJoint (rw : Nat) (j : PJoint) : List Nat :=
  encBytes j.name ++ encBytes j.nameE ++ encIdx rw j.rigidA ++ encIdx rw j.rigidB

/-- Decode one joint at the header-declared rigid-body-index width `rw`. -/
def decJoint (rw : Nat) (bs : List Nat) : Option (PJoint × List Nat) :=
  match decBytes bs with
  | some (nm, r1) =>
    match decBytes r1 with
    | some (nmE, r2) =>
      match decIdx rw r2 with
      | some (ra, r3) =>
        match decIdx rw r3 with
        | some (rb, r4) => some (⟨nm, nmE, ra, rb⟩, r4)
        | none => none
      | none => none
    | none => none
  | none => none

theorem decJoint_encJoint (rw : Nat) (j : PJoint) (r : List Nat)
    (hw : 0 < rw) (hn : ∀ x ∈ j.name, x < 256) (hnE : ∀ x ∈ j.nameE, x < 256)
    (ha : reprW rw j.rigidA = true) (hb : reprW rw j.rigidB = true) :
    decJoint rw (encJoint rw j ++ r) = some (j, r) := by
  unfold encJoint decJoint
  simp only [List.append_assoc, decBytes_encBytes _ _ hn, decBytes_encBytes _ _ hnE,
    decIdx_encIdx rw _ _ hw ha, decIdx_encIdx rw _ _ hw hb]

theorem chooseWidth_pos (m : Nat) : 0 < chooseWidth m := by
  unfold chooseWidth
  split_ifs <;> omega

theorem reprW_chooseWidth (n : Nat) (i : Int) (hn : n ≤ 2 ^ 31)
    (h1 : -1 ≤ i) (h2 : i < (n : Int)) : reprW (chooseWidth (n - 1)) i = true := by
  have hcast : ((n : Int)) ≤ 2 ^ 31 := by exact_mod_cast hn
  unfold chooseWidth reprW
  split_ifs with ha hb
  · simp only [Bool.and_eq_true, decide_eq_true_eq]
    norm_num
    omega
  · simp only [Bool.and_eq_true, decide_eq_true_eq]
    norm_num
    omega
  · simp only [Bool.and_eq_true, decide_eq_true_eq]
    norm_num
    omega

/-- The four magic bytes `"PMX "` opening a serialized model. -/
def pmxMagic : List Nat := [80, 77, 88, 32]

/-- Modelled from the spec: `write_model(ModelDocument) -> bytes`. Serialize a
model document (writer side of the codec): magic, version, globals block
(encoding and the per-table index widths, each chosen minimally by
`chooseWidth` from that table's maximum in-use index), model info strings,
then the tables in fixed order. -/
def encModel (D : ModelDocument) : List Nat :=
  pmxMagic
    ++ encScalar D.version
    ++ encVarNat D.encoding
    ++ encVarNat (chooseWidth (D.vertices.length - 1))
    ++ encVarNat (chooseWidth (D.textures.length - 1))
    ++ encVarNat (chooseWidth (D.bones.length - 1))
    ++ encVarNat (chooseWidth (D.rigidBodies.length - 1))
    ++ encBytes D.name ++ encBytes D.nameE ++ encBytes D.comment ++ encBytes D.commentE
    ++ encListWith (encVertex (chooseWidth (D.bones.length - 1))) D.vertices
    ++ encListWith (encFace (chooseWidth (D.vertices.length - 1))) D.faces
    ++ encListWith encBytes D.textures
    ++ encListWith (encMaterial (chooseWidth (D.textures.length - 1))) D.materials
    ++ encListWith (encBone (chooseWidth (D.bones.length - 1))) D.bones
    ++ encListWith (encMorph (chooseWidth (D.vertices.length - 1))) D.morphs
    ++ encListWith (encDisplayFrame (chooseWidth (D.bones.length - 1))) D.displayFrames
    ++ encListWith (encRigidBody (chooseWidth (D.bones.length - 1))) D.rigidBodies
    ++ encListWith (encJoint (chooseWidth (D.rigidBodies.length - 1))) D.joints

/-- Modelled from the spec: `read_model(bytes) -> ModelDocument`. Parse a
model document (reader side of the codec). Every index field is decoded at
the width declared in the header's globals block — the reader never infers
widths from table sizes. -/
def parseModel (bs : List Nat) : Option ModelDocument :=
  if bs.take 4 = pmxMagic then
    match decScalar (bs.drop 4) with
    | some (ver, r1) =>
      match decVarNat r1 with
      | some (enc, r2) =>
        match decVarNat r2 with
        | some (vw, r3) =>
          match decVarNat r3 with
          | some (tw, r4) =>
            match decVarNat r4 with
            | some (bw, r5) =>
              match decVarNat r5 with
              | some (rw, r6) =>
                match decBytes r6 with
                | some (nm, r7) =>
                  match decBytes r7 with
                  | some (nmE, r8) =>
                    match decBytes r8 with
                    | some (cm, r9) =>
                      match decBytes r9 with
                      | some (cmE, r10) =>
                        match decListWith (decVertex bw) r10 with
                        | some (vts, r11) =>
                          match decListWith (decFace vw) r11 with
                          | some (fcs, r12) =>
                            match decListWith decBytes r12 with
                            | some (txs, r13) =>
                              match decListWith (decMaterial tw) r13 with
                              | some (mts, r14) =>
                                match decListWith (decBone bw) r14 with
                                | some (bns, r15) =>
                                  match decListWith (decMorph vw) r15 with
                                  | some (mps, r16) =>
                                    match decListWith (decDisplayFrame bw) r16 with
                                    | some (dfs, r17) =>
                                      match decListWith (decRigidBody bw) r17 with
                                      | some (rbs, r18) =>
                                        match decListWith (decJoint rw) r18 with
                                        | some (jts, _) =>
                                          some ⟨ver, enc, nm, nmE, cm, cmE, vts, fcs,
                                                txs, mts, bns, mps, dfs, rbs, jts⟩
                                        | none => none
                                      | none => none
                                    | none => none
                                  | none => none
                                | none => none
                              | none => none
                            | none => none
                          | none => none
                        | none => none
                      | none => none
                    | none => none
                  | none => none
                | none => none
              | none => none
            | none => none
          | none => none
        | none => none
      | none => none
    | none => none
  else none

theorem take4_magic (l : List Nat) : (pmxMagic ++ l).take 4 = pmxMagic := rfl

theorem drop4_magic (l : List Nat) : (pmxMagic ++ l).drop 4 = l := rfl

theorem parseModel_encModel (D : ModelDocument)
    (hna : ∀ b ∈ D.name, b < 256) (hnb : ∀ b ∈ D.nameE, b < 256)
    (hnc : ∀ b ∈ D.comment, b < 256) (hnd : ∀ b ∈ D.commentE, b < 256)
    (hvn : D.vertices.length ≤ 2 ^ 31) (htn : D.textures.length ≤ 2 ^ 31)
    (hbn : D.bones.length ≤ 2 ^ 31) (hrn : D.rigidBodies.length ≤ 2 ^ 31)
    (hverts : ∀ v ∈ D.vertices, ∀ p ∈ v.weights, -1 ≤ p.1 ∧ p.1 < (D.bones.length : Int))
    (hfaces : ∀ f ∈ D.faces,
      f.1 < D.vertices.length ∧ f.2.1 < D.vertices.length ∧ f.2.2 < D.vertices.length)
    (htex : ∀ t ∈ D.textures, ∀ b ∈ t, b < 256)
    (hmats : ∀ m ∈ D.materials, (∀ b ∈ m.name, b < 256) ∧ (∀ b ∈ m.nameE, b < 256)
      ∧ (-1 ≤ m.texture ∧ m.texture < (D.textures.length : Int))
      ∧ (-1 ≤ m.sphereTexture ∧ m.sphereTexture < (D.textures.length : Int))
      ∧ (-1 ≤ m.toon ∧ m.toon < (D.textures.length : Int)))
    (hbones : ∀ b ∈ D.bones, (∀ x ∈ b.name, x < 256) ∧ (∀ x ∈ b.nameE, x < 256)
      ∧ (-1 ≤ b.parent ∧ b.parent < (D.bones.length : Int)))
    (hmorphs : ∀ m ∈ D.morphs, (∀ x ∈ m.name, x < 256) ∧ (∀ x ∈ m.nameE, x < 256)
      ∧ ∀ o ∈ m.offsets, -1 ≤ o.1 ∧ o.1 < (D.vertices.length : Int))
    (hdfs : ∀ f ∈ D.displayFrames, (∀ x ∈ f.name, x < 256) ∧ (∀ x ∈ f.nameE, x < 256)
      ∧ ∀ i ∈ f.items, -1 ≤ i ∧ i < (D.bones.length : Int))
    (hrbs : ∀ rb ∈ D.rigidBodies, (∀ x ∈ rb.name, x < 256) ∧ (∀ x ∈ rb.nameE, x < 256)
      ∧ (-1 ≤ rb.bone ∧ rb.bone < (D.bones.length : Int)))
    (hjts : ∀ j ∈ D.joints, (∀ x ∈ j.name, x < 256) ∧ (∀ x ∈ j.nameE, x < 256)
      ∧ (-1 ≤ j.rigidA ∧ j.rigidA < (D.rigidBodies.length : Int))
      ∧ (-1 ≤ j.rigidB ∧ j.rigidB < (D.rigidBodies.length : Int))) :
    parseModel (encModel D) = some D := by
  have Hn1 : ∀ r, decBytes (encBytes D.name ++ r) = some (D.name, r) :=
    fun r => decBytes_encBytes _ _ hna
  have Hn2 : ∀ r, decBytes (encBytes D.nameE ++ r) = some (D.nameE, r) :=
    fun r => decBytes_encBytes _ _ hnb
  have Hn3 : ∀ r, decBytes (encBytes D.comment ++ r) = some (D.comment, r) :=
    fun r => decBytes_encBytes _ _ hnc
  have Hn4 : ∀ r, decBytes (encBytes D.commentE ++ r) = some (D.commentE, r) :=
    fun r => decBytes_encBytes _ _ hnd
  have Hvts : ∀ r, decListWith (decVertex (chooseWidth (D.bones.length - 1)))
      (encListWith (encVertex (chooseWidth (D.bones.length - 1))) D.vertices ++ r)
      = some (D.vertices, r) := fun r =>
    decListWith_encListWith _ _ _ _ (fun v hv r2 =>
      decVertex_encVertex _ v r2 (chooseWidth_pos _) (fun p hp =>
        reprW_chooseWidth D.bones.length p.1 hbn (hverts v hv p hp).1 (hverts v hv p hp).2))
  have Hfcs : ∀ r, decListWith (decFace (chooseWidth (D.vertices.length - 1)))
      (encListWith (encFace (chooseWidth (D.vertices.length - 1))) D.faces ++ r)
      = some (D.faces, r) := fun r =>
    decListWith_encListWith _ _ _ _ (fun f hf r2 =>
      decFace_encFace _ f r2 (chooseWidth_pos _)
        (reprW_chooseWidth D.vertices.length _ hvn (by omega)
          (by exact_mod_cast (hfaces f hf).1))
        (reprW_chooseWidth D.vertices.length _ hvn (by omega)
          (by exact_mod_cast (hfaces f hf).2.1))
        (reprW_chooseWidth D.vertices.length _ hvn (by omega)
          (by exact_mod_cast (hfaces f hf).2.2)))
  have Htxs : ∀ r, decListWith decBytes (encListWith encBytes D.textures ++ r)
      = some (D.textures, r) := fun r =>
    decListWith_encListWith _ _ _ _ (fun t ht r2 => decBytes_encBytes _ _ (htex t ht))
  have Hmts : ∀ r, decListWith (decMaterial (chooseWidth (D.textures.length - 1)))
      (encListWith (encMaterial (chooseWidth (D.textures.length - 1))) D.materials ++ r)
      = some (D.materials, r) := fun r =>
    decListWith_encListWith _ _ _ _ (fun m hm r2 =>
      decMaterial_encMaterial _ m r2 (chooseWidth_pos _) (hmats m hm).1 (hmats m hm).2.1
        (reprW_chooseWidth D.textures.length _ htn (hmats m hm).2.2.1.1 (hmats m hm).2.2.1.2)
        (reprW_chooseWidth D.textures.length _ htn (hmats m hm).2.2.2.1.1
          (hmats m hm).2.2.2.1.2)
        (reprW_chooseWidth D.textures.length _ htn (hmats m hm).2.2.2.2.1
          (hmats m hm).2.2.2.2.2))
  have Hbns : ∀ r, decListWith (decBone (chooseWidth (D.bones.length - 1)))
      (encListWith (encBone (chooseWidth (D.bones.length - 1))) D.bones ++ r)
      = some (D.bones, r) := fun r =>
    decListWith_encListWith _ _ _ _ (fun b hb r2 =>
      decBone_encBone _ b r2 (chooseWidth_pos _) (hbones b hb).1 (hbones b hb).2.1
        (reprW_chooseWidth D.bones.length _ hbn (hbones b hb).2.2.1 (hbones b hb).2.2.2))
  have Hmps : ∀ r, decListWith (decMorph (chooseWidth (D.vertices.length - 1)))
      (encListWith (encMorph (chooseWidth (D.vertices.length - 1))) D.morphs ++ r)
      = some (D.morphs, r) := fun r =>
    decListWith_encListWith _ _ _ _ (fun m hm r2 =>
      decMorph_encMorph _ m r2 (chooseWidth_pos _) (hmorphs m hm).1 (hmorphs m hm).2.1
        (fun o ho => reprW_chooseWidth D.vertices.length _ hvn
          ((hmorphs m hm).2.2 o ho).1 ((hmorphs m hm).2.2 o ho).2))
  have Hdfs : ∀ r, decListWith (decDisplayFrame (chooseWidth (D.bones.length - 1)))
      (encListWith (encDisplayFrame (chooseWidth (D.bones.length - 1))) D.displayFrames ++ r)
      = some (D.displayFrames, r) := fun r =>
    decListWith_encListWith _ _ _ _ (fun f hf r2 =>
      decDisplayFrame_encDisplayFrame _ f r2 (chooseWidth_pos _) (hdfs f hf).1 (hdfs f hf).2.1
        (fun i hi => reprW_chooseWidth D.bones.length _ hbn
          ((hdfs f hf).2.2 i hi).1 ((hdfs f hf).2.2 i hi).2))
  have Hrbs : ∀ r, decListWith (decRigidBody (chooseWidth (D.bones.length - 1)))
      (encListWith (encRigidBody (chooseWidth (D.bones.length - 1))) D.rigidBodies ++ r)
      = some (D.rigidBodies, r) := fun r =>
    decListWith_encListWith _ _ _ _ (fun rb hrb r2 =>
      decRigidBody_encRigidBody _ rb r2 (chooseWidth_pos _) (hrbs rb hrb).1 (hrbs rb hrb).2.1
        (reprW_chooseWidth D.bones.length _ hbn (hrbs rb hrb).2.2.1 (hrbs rb hrb).2.2.2))
  have Hjts : ∀ r, decListWith (decJoint (chooseWidth (D.rigidBodies.length - 1)))
      (encListWith (encJoint (chooseWidth (D.rigidBodies.length - 1))) D.joints ++ r)
      = some (D.joints, r) := fun r =>
    decListWith_encListWith _ _ _ _ (fun j hj r2 =>
      decJoint_encJoint _ j r2 (chooseWidth_pos _) (hjts j hj).1 (hjts j hj).2.1
        (reprW_chooseWidth D.rigidBodies.length _ hrn (hjts j hj).2.2.1.1 (hjts j hj).2.2.1.2)
        (reprW_chooseWidth D.rigidBodies.length _ hrn (hjts j hj).2.2.2.1 (hjts j hj).2.2.2.2))
  unfold parseModel encModel
  simp only [List.append_assoc, take4_magic, drop4_magic]
  rw [if_true]
  simp only [decScalar_encScalar, decVarNat_encVarNat, Hn1, Hn2, Hn3, Hn4,
    Hvts, Hfcs, Htxs, Hmts, Hbns, Hmps, Hdfs, Hrbs, Hjts]
  rw [← List.append_nil (encListWith (encJoint (chooseWidth (D.rigidBodies.length - 1))) D.joints),
    Hjts]

/-- Exact-fraction sum of two scalars. -/
def scalarAdd (x y : Scalar) : Scalar := (x.1 * y.2 + y.1 * x.2, x.2 * y.2)

/-- Exact-fraction quotient of two scalars. -/
def scalarDiv (x y : Scalar) : Scalar := (x.1 * y.2, x.2 * y.1)

/-- Total of a vertex's bone weights. -/
def weightTotal (ws : List (Int × Scalar)) : Scalar :=
  ws.foldr (fun p acc => scalarAdd p.2 acc) (0, 1)

/-- Modelled from the spec: bone weights are renormalized to sum 1.0 at
export, unlike import which preserves raw values. Export-side weight
renormalization: each influence is divided by the vertex's weight total
(left unchanged when the total is zero), so the written weights sum to
exactly 1. -/
def renormWeights (ws : List (Int × Scalar)) : List (Int × Scalar) :=
  if (weightTotal ws).1 = 0 then ws
  else ws.map (fun p => (p.1, scalarDiv p.2 (weightTotal ws)))

/-- Renormalize one vertex's weights. -/
def renormVertex (v : PVertex) : PVertex := { v with weights := renormWeights v.weights }

/-- The export renormalization pass over a whole document. -/
def renormDoc (D : ModelDocument) : ModelDocument :=
  { D with vertices := D.vertices.map renormVertex }

/-- Modelled from the spec: `write_model(ModelDocument) -> bytes`. Full
writer: run the export renormalization step, then encode. -/
def serializeModel (D : ModelDocument) : List Nat := encModel (renormDoc D)

/-- Rational value of a vertex's weight list. -/
def wsumQ (ws : List (Int × Scalar)) : ℚ := (ws.map (fun p => scalarVal p.2)).sum

theorem scalarVal_scalarAdd (x y : Scalar) (hx : x.2 ≠ 0) (hy : y.2 ≠ 0) :
    scalarVal (scalarAdd x y) = scalarVal x + scalarVal y := by
  unfold scalarVal scalarAdd
  have hx2 : (x.2 : ℚ) ≠ 0 := Int.cast_ne_zero.mpr hx
  have hy2 : (y.2 : ℚ) ≠ 0 := Int.cast_ne_zero.mpr hy
  push_cast
  field_simp

theorem weightTotal_den (ws : List (Int × Scalar)) (h : ∀ p ∈ ws, (p.2).2 ≠ 0) :
    (weightTotal ws).2 ≠ 0 := by
  induction ws with
  | nil => simp [weightTotal]
  | cons p t ih =>
    show (scalarAdd p.2 (weightTotal t)).2 ≠ 0
    exact mul_ne_zero (h p (by simp)) (ih (fun q hq => h q (by simp [hq])))

theorem scalarVal_weightTotal (ws : List (Int × Scalar)) (h : ∀ p ∈ ws, (p.2).2 ≠ 0) :
    scalarVal (weightTotal ws) = wsumQ ws := by
  induction ws with
  | nil => simp [weightTotal, wsumQ, scalarVal]
  | cons p t ih =>
    show scalarVal (scalarAdd p.2 (weightTotal t)) = _
    rw [scalarVal_scalarAdd _ _ (h p (by simp))
      (weightTotal_den t (fun q hq => h q (by simp [hq])))]
    rw [ih (fun q hq => h q (by simp [hq]))]
    simp [wsumQ]

theorem scalarVal_scalarDiv (x s : Scalar) :
    scalarVal (scalarDiv x s) = scalarVal x * (scalarVal s)⁻¹ := by
  unfold scalarVal scalarDiv
  push_cast
  rw [inv_div, div_mul_div_comm]

theorem wsumQ_map_div (ws : List (Int × Scalar)) (s : Scalar) :
    wsumQ (ws.map fun p => (p.1, scalarDiv p.2 s)) = wsumQ ws * (scalarVal s)⁻¹ := by
  unfold wsumQ
  induction ws with
  | nil => simp
  | cons p t ih =>
    simp only [List.map_cons, List.map_map, List.sum_cons] at *
    rw [scalarVal_scalarDiv, ih, add_mul]

theorem wsumQ_renormWeights (ws : List (Int × Scalar))
    (hden : ∀ p ∈ ws, (p.2).2 ≠ 0) (htot : (weightTotal ws).1 ≠ 0) :
    wsumQ (renormWeights ws) = 1 := by
  have hs2 : (weightTotal ws).2 ≠ 0 := weightTotal_den ws hden
  have hv : scalarVal (weightTotal ws) ≠ 0 := by
    unfold scalarVal
    exact div_ne_zero (Int.cast_ne_zero.mpr htot) (Int.cast_ne_zero.mpr hs2)
  unfold renormWeights
  rw [if_neg htot, wsumQ_map_div, ← scalarVal_weightTotal ws hden, mul_inv_cancel₀ hv]

theorem renormWeights_indices (ws : List (Int × Scalar)) (p : Int × Scalar)
    (hp : p ∈ renormWeights ws) : ∃ q ∈ ws, q.1 = p.1 := by
  unfold renormWeights at hp
  split_ifs at hp with h
  · exact ⟨p, hp, rfl⟩
  · obtain ⟨q, hq, rfl⟩ := List.mem_map.mp hp
    exact ⟨q, hq, rfl⟩

/-- Forget every vertex's weight list (used to state field-for-field
equality of documents up to bone weights). -/
def eraseWeights (D : ModelDocument) : ModelDocument :=
  { D with vertices := D.vertices.map (fun v => { v with weights := [] }) }

theorem eraseWeights_renormDoc (D : ModelDocument) :
    eraseWeights (renormDoc D) = eraseWeights D := by
  unfold eraseWeights renormDoc
  simp only [List.map_map]
  rfl

/-- Validity of one vertex: influences reference the bone table in range
(−1 = nil allowed), weight denominators are nonzero and the weight total
is nonzero (the spec's "weights sum to 1.0, tolerated and renormalized"). -/
def validVertexB (nBones : Nat) (v : PVertex) : Bool :=
  v.weights.all (fun p =>
    decide (-1 ≤ p.1) && decide (p.1 < (nBones : Int)) && decide ((p.2).2 ≠ 0))
  && decide ((weightTotal v.weights).1 ≠ 0)

/-- Modelled from the spec: every referenced index resolves within bounds of
its own table, strings are byte strings, and table sizes fit the largest
index width. Validity of a model document. -/
def validModelDocument (D : ModelDocument) : Bool :=
  D.name.all (fun b => decide (b < 256)) && D.nameE.all (fun b => decide (b < 256))
  && D.comment.all (fun b => decide (b < 256)) && D.commentE.all (fun b => decide (b < 256))
  && decide (D.vertices.length ≤ 2 ^ 31) && decide (D.textures.length ≤ 2 ^ 31)
  && decide (D.bones.length ≤ 2 ^ 31) && decide (D.rigidBodies.length ≤ 2 ^ 31)
  && D.vertices.all (validVertexB D.bones.length)
  && D.faces.all (fun f => decide (f.1 < D.vertices.length)
      && decide (f.2.1 < D.vertices.length) && decide (f.2.2 < D.vertices.length))
  && D.textures.all (fun t => t.all (fun b => decide (b < 256)))
  && D.materials.all (fun m => m.name.all (fun b => decide (b < 256))
      && m.nameE.all (fun b => decide (b < 256))
      && decide (-1 ≤ m.texture) && decide (m.texture < (D.textures.length : Int))
      && decide (-1 ≤ m.sphereTexture) && decide (m.sphereTexture < (D.textures.length : Int))
      && decide (-1 ≤ m.toon) && decide (m.toon < (D.textures.length : Int)))
  && D.bones.all (fun b => b.name.all (fun x => decide (x < 256))
      && b.nameE.all (fun x => decide (x < 256))
      && decide (-1 ≤ b.parent) && decide (b.parent < (D.bones.length : Int)))
  && D.morphs.all (fun m => m.name.all (fun x => decide (x < 256))
      && m.nameE.all (fun x => decide (x < 256))
      && m.offsets.all (fun o => decide (-1 ≤ o.1) && decide (o.1 < (D.vertices.length : Int))))
  && D.displayFrames.all (fun f => f.name.all (fun x => decide (x < 256))
      && f.nameE.all (fun x => decide (x < 256))
      && f.items.all (fun i => decide (-1 ≤ i) && decide (i < (D.bones.length : Int))))
  && D.rigidBodies.all (fun rb => rb.name.all (fun x => decide (x < 256))
      && rb.nameE.all (fun x => decide (x < 256))
      && decide (-1 ≤ rb.bone) && decide (rb.bone < (D.bones.length : Int)))
  && D.joints.all (fun j => j.name.all (fun x => decide (x < 256))
      && j.nameE.all (fun x => decide (x < 256))
      && decide (-1 ≤ j.rigidA) && decide (j.rigidA < (D.rigidBodies.length : Int))
      && decide (-1 ≤ j.rigidB) && decide (j.rigidB < (D.rigidBodies.length : Int)))

/-- C1: For all valid model documents `D`, parsing the bytes produced
by serializing `D` yields a document field-for-field equal to `D`, except
bone weights, which after the export renormalization step sum to 1.0
within a tolerance of 1e-6 (here: exactly 1). -/
theorem c1_serialize_parse_roundtrip (D : ModelDocument)
    (h : validModelDocument D = true) :
    parseModel (serializeModel D) = some (renormDoc D)
    ∧ eraseWeights (renormDoc D) = eraseWeights D
    ∧ ∀ v ∈ (renormDoc D).vertices, |wsumQ v.weights - 1| ≤ 1 / 1000000 := by
  simp only [validModelDocument, validVertexB, Bool.and_eq_true, List.all_eq_true,
    decide_eq_true_eq] at h
  obtain ⟨⟨⟨⟨⟨⟨⟨⟨⟨⟨⟨⟨⟨⟨⟨⟨hna, hnb⟩, hnc⟩, hnd⟩, hvn⟩, htn⟩, hbn⟩, hrn⟩, hverts⟩,
    hfaces⟩, htex⟩, hmats⟩, hbones⟩, hmorphs⟩, hdfs⟩, hrbs⟩, hjts⟩ := h
  have hlen : (renormDoc D).vertices.length = D.vertices.length := by
    unfold renormDoc
    simp
  refine ⟨?_, eraseWeights_renormDoc D, ?_⟩
  · unfold serializeModel
    refine parseModel_encModel (renormDoc D) hna hnb hnc hnd (by rw [hlen]; exact hvn)
      htn hbn hrn ?_ ?_ htex ?_ ?_ ?_ ?_ ?_ ?_
    · intro v hv p hp
      obtain ⟨u, hu, rfl⟩ := List.mem_map.mp hv
      obtain ⟨q, hq, hqi⟩ := renormWeights_indices u.weights p hp
      obtain ⟨⟨hq1, hq2⟩, _⟩ := (hverts u hu).1 q hq
      exact ⟨by rw [← hqi]; exact hq1, by rw [← hqi]; exact hq2⟩
    · intro f hf
      obtain ⟨⟨hf1, hf2⟩, hf3⟩ := hfaces f hf
      rw [hlen]
      exact ⟨hf1, hf2, hf3⟩
    · intro m hm
      obtain ⟨⟨⟨⟨⟨⟨⟨hm1, hm2⟩, hm3⟩, hm4⟩, hm5⟩, hm6⟩, hm7⟩, hm8⟩ := hmats m hm
      exact ⟨hm1, hm2, ⟨hm3, hm4⟩, ⟨hm5, hm6⟩, ⟨hm7, hm8⟩⟩
    · intro b hb
      obtain ⟨⟨⟨hb1, hb2⟩, hb3⟩, hb4⟩ := hbones b hb
      exact ⟨hb1, hb2, hb3, hb4⟩
    · intro m hm
      obtain ⟨⟨hm1, hm2⟩, hm3⟩ := hmorphs m hm
      rw [hlen]
      exact ⟨hm1, hm2, fun o ho => ⟨(hm3 o ho).1, (hm3 o ho).2⟩⟩
    · intro f hf
      obtain ⟨⟨hf1, hf2⟩, hf3⟩ := hdfs f hf
      exact ⟨hf1, hf2, fun i hi => ⟨(hf3 i hi).1, (hf3 i hi).2⟩⟩
    · intro rb hrb
      obtain ⟨⟨⟨hr1, hr2⟩, hr3⟩, hr4⟩ := hrbs rb hrb
      exact ⟨hr1, hr2, hr3, hr4⟩
    · intro j hj
      obtain ⟨⟨⟨⟨⟨hj1, hj2⟩, hj3⟩, hj4⟩, hj5⟩, hj6⟩ := hjts j hj
      exact ⟨hj1, hj2, ⟨hj3, hj4⟩, ⟨hj5, hj6⟩⟩
  · intro v hv
    obtain ⟨u, hu, rfl⟩ := List.mem_map.mp hv
    have hsum : wsumQ (renormWeights u.weights) = 1 :=
      wsumQ_renormWeights u.weights
        (fun p hp => ((hverts u hu).1 p hp).2) (hverts u hu).2
    show |wsumQ (renormWeights u.weights) - 1| ≤ 1 / 1000000
    rw [hsum]
    norm_num

/-- Modelled from the spec: `MalformedInput`, `InvalidBoneHierarchy`.
Import-time structured error taxonomy. -/
inductive ImportError
  | malformedInput
  | invalidBoneHierarchy
  deriving DecidableEq

/-- A bone as instantiated in the scene graph. -/
structure SBone where
  name : List Nat
  parent : Option Nat
  deriving DecidableEq

/-- The parent link of bone `i` of the document's bone table; a nil or
out-of-range parent index means root. -/
def parentOf (doc : List PBone) (i : Nat) : Option Nat :=
  match doc[i]? with
  | some b =>
    if 0 ≤ b.parent ∧ b.parent < (doc.length : Int) then some b.parent.toNat else none
  | none => none

/-- Iteration of the parent link, `m` times. -/
def parentIterN (doc : List PBone) : Nat → Nat → Option Nat
  | 0, i => some i
  | m + 1, i =>
    match parentOf doc i with
    | some p => parentIterN doc m p
    | none => none

/-- Modelled from the spec: cycle detection via an explicit visited-set walk
over parent links. The visited-set walk up the parent chain from `cur`:
reports a cycle when the walk revisits a bone, reports no cycle when it
reaches a root. -/
def walkVisited (doc : List PBone) : Nat → List Nat → Nat → Bool
  | 0, _, _ => true
  | fuel + 1, visited, cur =>
    if cur ∈ visited then true
    else
      match parentOf doc cur with
      | none => false
      | some p => walkVisited doc fuel (cur :: visited) p

/-- Cycle-detection pass of the second import phase: run the visited-set
walk from every instantiated bone. -/
def detectCycle (doc : List PBone) : Bool :=
  (List.range doc.length).any (fun i => walkVisited doc (doc.length + 1) [] i)

/-- Second pass: wire parent links onto the already-instantiated scene
bones. -/
def wireParents (doc : List PBone) (created : List SBone) : List SBone :=
  List.zipWith (fun sb b =>
    { sb with parent := if 0 ≤ b.parent ∧ b.parent < (doc.length : Int)
                        then some b.parent.toNat else none }) created doc

/-- Modelled from the spec: two-pass construction, all-or-nothing rejection.
Two-pass bone import: instantiate every bone of the document first, then
detect cycles with the visited-set walk and wire parent links; a detected
cycle rejects the whole bone table with `InvalidBoneHierarchy`. -/
def importBones (doc : List PBone) : Except ImportError (List SBone) :=
  let created := doc.map (fun b => ({ name := b.name, parent := none } : SBone))
  if detectCycle doc then Except.error ImportError.invalidBoneHierarchy
  else Except.ok (wireParents doc created)

/-- The scene-graph state owned by the host. -/
structure Scene where
  bones : List SBone
  deriving DecidableEq

/-- Run the bone import against a scene: constructed bones are committed
to the scene only on success; on failure the scene is untouched and the
structured error is surfaced. -/
def runBoneImport (doc : List PBone) (sc : Scene) : Scene × Option ImportError :=
  match importBones doc with
  | Except.ok bs => ({ bones := sc.bones ++ bs }, none)
  | Except.error e => (sc, some e)

theorem walkVisited_false (doc : List PBone) (fuel : Nat) (visited : List Nat) (cur : Nat)
    (h : walkVisited doc fuel visited cur = false) :
    ∃ m, m ≤ fuel ∧ parentIterN doc m cur = none := by
  induction fuel generalizing visited cur with
  | zero => simp [walkVisited] at h
  | succ k ih =>
    unfold walkVisited at h
    split_ifs at h with hmem
    cases hp : parentOf doc cur with
    | none => exact ⟨1, by omega, by simp [parentIterN, hp]⟩
    | some p =>
      rw [hp] at h
      obtain ⟨m, hm, hnone⟩ := ih (cur :: visited) p h
      exact ⟨m + 1, by omega, by simp [parentIterN, hp, hnone]⟩

theorem parentIterN_succ_right (doc : List PBone) (m i : Nat) :
    parentIterN doc (m + 1) i =
      match parentIterN doc m i with
      | some j => parentOf doc j
      | none => none := by
  induction m generalizing i with
  | zero =>
    show (match parentOf doc i with
          | some p => parentIterN doc 0 p
          | none => none) = parentOf doc i
    cases hp : parentOf doc i <;> simp [parentIterN]
  | succ k ih =>
    show (match parentOf doc i with
          | some p => parentIterN doc (k + 1) p
          | none => none)
        = (match (match parentOf doc i with
                  | some p => parentIterN doc k p
                  | none => none) with
           | some j => parentOf doc j
           | none => none)
    cases hp : parentOf doc i with
    | none => rfl
    | some p => exact ih p

theorem cycle_iter_never_none (doc : List PBone) (i k : Nat)
    (hk : 0 < k) (hcyc : parentIterN doc k i = some i) :
    ∀ m, parentIterN doc m i ≠ none := by
  have key : ∀ m, ∃ j l, parentIterN doc m i = some j ∧ 0 < l
      ∧ parentIterN doc l j = some j := by
    intro m
    induction m with
    | zero => exact ⟨i, k, rfl, hk, hcyc⟩
    | succ n ihn =>
      obtain ⟨j, l, hmj, hl, hlj⟩ := ihn
      obtain ⟨l', rfl⟩ : ∃ l', l = l' + 1 := ⟨l - 1, by omega⟩
      have hstep : parentOf doc j ≠ none := by
        intro hnone
        rw [show parentIterN doc (l' + 1) j = none by
          unfold parentIterN; rw [hnone]] at hlj
        exact Option.noConfusion hlj
      cases hpj : parentOf doc j with
      | none => exact absurd hpj hstep
      | some p =>
        refine ⟨p, l' + 1, ?_, by omega, ?_⟩
        · rw [parentIterN_succ_right, hmj]
          exact hpj
        · have hl'p : parentIterN doc l' p = some j := by
            have := hlj
            unfold parentIterN at this
            rw [hpj] at this
            exact this
          rw [parentIterN_succ_right, hl'p]
          exact hpj
  intro m hnone
  obtain ⟨j, l, hmj, _, _⟩ := key m
  rw [hmj] at hnone
  exact Option.noConfusion hnone

theorem cycle_start_lt_length (doc : List PBone) (i k : Nat)
    (hk : 0 < k) (hcyc : parentIterN doc k i = some i) : i < doc.length := by
  obtain ⟨k', rfl⟩ : ∃ k', k = k' + 1 := ⟨k - 1, by omega⟩
  unfold parentIterN at hcyc
  cases hp : parentOf doc i with
  | none => rw [hp] at hcyc; exact Option.noConfusion hcyc
  | some p =>
    unfold parentOf at hp
    cases hg : doc[i]? with
    | none => rw [hg] at hp; exact Option.noConfusion hp
    | some b => exact (List.getElem?_eq_some_iff.mp hg).1

/-- C4: For every model document whose bone-parent graph contains a
cycle (witnessed by a bone `i` returning to itself after `k > 0` parent
steps), the import fails with `InvalidBoneHierarchy`, zero bones are
constructed in the scene graph (the scene is unchanged — all-or-nothing),
and the cycle is caught by the explicit visited-set walk of the second
pass over parent links. -/
theorem c4_cycle_rejection (doc : List PBone) (sc : Scene) (i k : Nat)
    (hk : 0 < k) (hcyc : parentIterN doc k i = some i) :
    runBoneImport doc sc = (sc, some ImportError.invalidBoneHierarchy)
    ∧ detectCycle doc = true := by
  have hnever := cycle_iter_never_none doc i k hk hcyc
  have hi : i < doc.length := cycle_start_lt_length doc i k hk hcyc
  have hwalk : walkVisited doc (doc.length + 1) [] i = true := by
    cases hw : walkVisited doc (doc.length + 1) [] i with
    | false =>
      obtain ⟨m, _, hnone⟩ := walkVisited_false doc _ [] i hw
      exact absurd hnone (hnever m)
    | true => rfl
  have hdet : detectCycle doc = true := by
    unfold detectCycle
    rw [List.any_eq_true]
    exact ⟨i, List.mem_range.mpr hi, hwalk⟩
  refine ⟨?_, hdet⟩
  unfold runBoneImport importBones
  rw [hdet]
  rfl

/-- Scalar comparison by cross multiplication (exact for positive
denominators). -/
def scalarLtB (x y : Scalar) : Bool := decide (x.1 * y.2 < y.1 * x.2)

/-- The import epsilon 1e-6 below which weights are dropped. -/
def importEps : Scalar := (1, 1000000)

/-- Modelled from the spec: weights below an epsilon (1e-6) are dropped at
the import and the remaining weights are not renormalized, preserving author
intent. Import-side weight handling: influences whose weight lies below
the epsilon are dropped; the kept influences keep their raw values and are
NOT renormalized. -/
def importVertexWeights (ws : List (Int × Scalar)) : List (Int × Scalar) :=
  ws.filter (fun p => ! scalarLtB p.2 importEps)

theorem scalarLtB_iff (x y : Scalar) (hx : 0 < x.2) (hy : 0 < y.2) :
    scalarLtB x y = true ↔ scalarVal x < scalarVal y := by
  unfold scalarLtB scalarVal
  rw [decide_eq_true_eq,
    div_lt_div_iff (by exact_mod_cast hx) (by exact_mod_cast hy)]
  constructor
  · intro h
    exact_mod_cast h
  · intro h
    exact_mod_cast h

/-- C5: Bone-weight normalization is asymmetric: at import, per-vertex
weights below the epsilon 1e-6 are dropped and the remaining weights are
kept with their raw values (no renormalization); at export, every
vertex's bone weights are renormalized to sum exactly 1.0. -/
theorem c5_weight_asymmetry (ws : List (Int × Scalar))
    (hden : ∀ p ∈ ws, 0 < (p.2).2) (htot : (weightTotal ws).1 ≠ 0) :
    (importVertexWeights ws).Sublist ws
    ∧ (∀ p ∈ ws, (p ∈ importVertexWeights ws ↔ 1 / 1000000 ≤ scalarVal p.2))
    ∧ wsumQ (renormWeights ws) = 1 := by
  refine ⟨List.filter_sublist ws, ?_, ?_⟩
  · intro p hp
    unfold importVertexWeights
    rw [List.mem_filter]
    have heps : scalarVal importEps = 1 / 1000000 := by
      unfold scalarVal importEps
      norm_num
    have := scalarLtB_iff p.2 importEps (hden p hp) (by unfold importEps; norm_num)
    constructor
    · intro h2
      rw [← heps]
      by_contra hlt
      rw [Bool.not_eq_eq_eq_not, Bool.not_true, ← Bool.not_eq_true, this] at h2
      exact h2.2 (lt_of_not_le hlt)
    · intro h2
      refine ⟨hp, ?_⟩
      rw [Bool.not_eq_eq_eq_not, Bool.not_true, ← Bool.not_eq_true, this]
      rw [heps]
      exact not_lt_of_le h2
  · exact wsumQ_renormWeights ws (fun p hp => ne_of_gt (hden p hp)) htot

/-- C6: For every table, the writer's width choice is the minimum
width in {1,2,4} at which the table's maximum in-use index (`n − 1` for a
table of `n` elements, with −1 as the nil index) is representable as a
signed integer of that byte width — never narrower than required, never
wider than necessary — while the reader decodes at the header-declared
width `w`, whichever it is, rather than inferring it. -/
theorem c6_index_width_minimality (n : Nat) (hn : n ≤ 2 ^ 31) :
    (chooseWidth (n - 1) = 1 ∨ chooseWidth (n - 1) = 2 ∨ chooseWidth (n - 1) = 4)
    ∧ reprW (chooseWidth (n - 1)) ((n : Int) - 1) = true
    ∧ reprW (chooseWidth (n - 1)) (-1) = true
    ∧ (∀ w, (w = 1 ∨ w = 2 ∨ w = 4) → reprW w ((n : Int) - 1) = true →
        chooseWidth (n - 1) ≤ w)
    ∧ (∀ w i r, 0 < w → reprW w i = true → decIdx w (encIdx w i ++ r) = some (i, r)) := by
  have hcast : ((n : Int)) ≤ 2 ^ 31 := by exact_mod_cast hn
  refine ⟨?_, ?_, ?_, ?_, fun w i r hw h => decIdx_encIdx w i r hw h⟩
  · unfold chooseWidth
    split_ifs <;> simp
  · by_cases h0 : n = 0
    · subst h0
      decide
    · refine reprW_chooseWidth n ((n : Int) - 1) hn (by omega) (by omega)
  · unfold chooseWidth reprW
    split_ifs <;> simp only [Bool.and_eq_true, decide_eq_true_eq] <;> norm_num
  · intro w hw hrep
    simp only [reprW, Bool.and_eq_true, decide_eq_true_eq] at hrep
    unfold chooseWidth
    split_ifs with ha hb
    · rcases hw with rfl | rfl | rfl <;> omega
    · rcases hw with rfl | rfl | rfl
      · norm_num at hrep
        omega
      · omega
      · omega
    · rcases hw with rfl | rfl | rfl
      · norm_num at hrep
        omega
      · norm_num at hrep
        omega
      · omega

/-- Modelled from the spec: the BoneFrame of the Motion Document Model. One
VMD bone keyframe: bone name, frame number, translation and quaternion
rotation components (x, y, z, w) as scalars. -/
structure BoneFrame where
  boneName : List Nat
  frameNumber : Nat
  translation : Scalar × Scalar × Scalar
  rotation : Scalar × Scalar × Scalar × Scalar
  deriving DecidableEq

/-- Exact negation of a scalar. -/
def scalarNeg (p : Scalar) : Scalar := (-p.1, p.2)

/-- Modelled from the spec: the motion mirror option negates X-axis
translation and conjugates rotation about the X axis per frame. Mirror one
bone frame: negate the X translation component and take the X-axis
conjugate of the rotation quaternion (negate the Y and Z imaginary parts);
bone name and frame number are untouched. -/
def mirrorFrame (f : BoneFrame) : BoneFrame :=
  { f with
    translation := (scalarNeg f.translation.1, f.translation.2.1, f.translation.2.2)
    rotation := (f.rotation.1, scalarNeg f.rotation.2.1, scalarNeg f.rotation.2.2.1,
                 f.rotation.2.2.2) }

/-- Mirror a whole motion: the same per-frame map applied uniformly to
every bone frame, with no dependence on bone naming. -/
def mirrorMotion (frames : List BoneFrame) : List BoneFrame := frames.map mirrorFrame

theorem mirrorFrame_mirrorFrame (f : BoneFrame) : mirrorFrame (mirrorFrame f) = f := by
  obtain ⟨nm, fr, ⟨t1, t2, t3⟩, ⟨r1, r2, r3, r4⟩⟩ := f
  simp [mirrorFrame, scalarNeg]

/-- C7: The motion mirror produces translation (−x, y, z) and the
X-axis conjugate of the rotation quaternion, applied uniformly to every
bone frame independent of bone naming, and applying the mirror twice
yields the original motion exactly. -/
theorem c7_mirror_involution (f : BoneFrame) (frames : List BoneFrame) :
    mirrorFrame (mirrorFrame f) = f
    ∧ (mirrorFrame f).translation
        = (scalarNeg f.translation.1, f.translation.2.1, f.translation.2.2)
    ∧ (mirrorFrame f).rotation
        = (f.rotation.1, scalarNeg f.rotation.2.1, scalarNeg f.rotation.2.2.1,
           f.rotation.2.2.2)
    ∧ (mirrorFrame f).boneName = f.boneName
    ∧ (mirrorFrame f).frameNumber = f.frameNumber
    ∧ mirrorMotion frames = frames.map mirrorFrame
    ∧ mirrorMotion (mirrorMotion frames) = frames := by
  refine ⟨mirrorFrame_mirrorFrame f, rfl, rfl, rfl, rfl, rfl, ?_⟩
  unfold mirrorMotion
  rw [List.map_map]
  have : mirrorFrame ∘ mirrorFrame = id := by
    funext g
    exact mirrorFrame_mirrorFrame g
  rw [this, List.map_id]

/-- Importer kinds selectable by the import entry point
(`ImportPmx._do_execute`, fileio.py lines 189-191). -/
inductive ImporterKind
  | pmdImporter
  | pmxImporter
  deriving DecidableEq

/-- Embedding of the extension test of `ImportPmx._do_execute`
(fileio.py line 190): `re.search("\\.pmd$", self.filepath, flags=re.I)`.
Without re.M the dollar anchor matches at the end of the string and also
just before one trailing newline, so the test accepts a path ending
`.pmd` and a path ending `.pmd` followed by one final newline, the
letters matched case-insensitively. -/
def pmdSuffixTest (path : List Char) : Bool :=
  ['.', 'p', 'm', 'd'].isSuffixOf (path.map Char.toLower)
  || ['.', 'p', 'm', 'd', '\n'].isSuffixOf (path.map Char.toLower)

/-- Importer selection of `ImportPmx._do_execute`: the PMD importer when
the extension test matches, the PMX importer for every other path. -/
def selectImporter (path : List Char) : ImporterKind :=
  if pmdSuffixTest path then ImporterKind.pmdImporter else ImporterKind.pmxImporter

/-- Statement of the original claim taken at its words: the path's
extension is `.pmd` matched case-insensitively, i.e. the path itself
ends with the four characters of `.pmd`. -/
def pmdExtensionSpec (path : List Char) : Bool :=
  ['.', 'p', 'm', 'd'].isSuffixOf (path.map Char.toLower)

theorem pmdSuffix4_iff (path : List Char) :
    ['.', 'p', 'm', 'd'].isSuffixOf (path.map Char.toLower) = true ↔
      ∃ pre c1 c2 c3 c4, path = pre ++ [c1, c2, c3, c4] ∧ c1.toLower = '.'
        ∧ c2.toLower = 'p' ∧ c3.toLower = 'm' ∧ c4.toLower = 'd' := by
  rw [List.isSuffixOf_iff_suffix]
  constructor
  · rintro ⟨t, ht⟩
    obtain ⟨s', t', hpath, hs', ht'⟩ := List.map_eq_append_iff.mp ht.symm
    cases t' with
    | nil => simp at ht'
    | cons c1 t1 =>
      cases t1 with
      | nil => simp at ht'
      | cons c2 t2 =>
        cases t2 with
        | nil => simp at ht'
        | cons c3 t3 =>
          cases t3 with
          | nil => simp at ht'
          | cons c4 t4 =>
            cases t4 with
            | cons c5 t5 => simp at ht'
            | nil =>
              simp only [List.map_cons, List.map_nil, List.cons.injEq, and_true] at ht'
              exact ⟨s', c1, c2, c3, c4, hpath, ht'.1, ht'.2.1, ht'.2.2.1, ht'.2.2.2⟩
  · rintro ⟨pre, c1, c2, c3, c4, rfl, h1, h2, h3, h4⟩
    refine ⟨pre.map Char.toLower, ?_⟩
    rw [List.map_append]
    simp [h1, h2, h3, h4]

theorem pmdSuffix5_iff (path : List Char) :
    ['.', 'p', 'm', 'd', '\n'].isSuffixOf (path.map Char.toLower) = true ↔
      ∃ pre c1 c2 c3 c4 c5, path = pre ++ [c1, c2, c3, c4, c5] ∧ c1.toLower = '.'
        ∧ c2.toLower = 'p' ∧ c3.toLower = 'm' ∧ c4.toLower = 'd'
        ∧ c5.toLower = '\n' := by
  rw [List.isSuffixOf_iff_suffix]
  constructor
  · rintro ⟨t, ht⟩
    obtain ⟨s', t', hpath, hs', ht'⟩ := List.map_eq_append_iff.mp ht.symm
    cases t' with
    | nil => simp at ht'
    | cons c1 t1 =>
      cases t1 with
      | nil => simp at ht'
      | cons c2 t2 =>
        cases t2 with
        | nil => simp at ht'
        | cons c3 t3 =>
          cases t3 with
          | nil => simp at ht'
          | cons c4 t4 =>
            cases t4 with
            | nil => simp at ht'
            | cons c5 t5 =>
              cases t5 with
              | cons c6 t6 => simp at ht'
              | nil =>
                simp only [List.map_cons, List.map_nil, List.cons.injEq, and_true] at ht'
                exact ⟨s', c1, c2, c3, c4, c5, hpath, ht'.1, ht'.2.1, ht'.2.2.1,
                  ht'.2.2.2.1, ht'.2.2.2.2⟩
  · rintro ⟨pre, c1, c2, c3, c4, c5, rfl, h1, h2, h3, h4, h5⟩
    refine ⟨pre.map Char.toLower, ?_⟩
    rw [List.map_append]
    simp [h1, h2, h3, h4, h5]

/-- C3 counterexample: the six-character path a.pmd followed by one
newline does not have extension `.pmd` — its last character is the
newline — yet the regex test of the code accepts it, because the dollar
anchor also matches just before a trailing newline; so this path is
handled by the PMD importer, refuting the claim that every path without
the `.pmd` extension is handled by the PMX importer. -/
theorem c3_counterexample :
    pmdExtensionSpec ['a', '.', 'p', 'm', 'd', '\n'] = false
    ∧ selectImporter ['a', '.', 'p', 'm', 'd', '\n'] = ImporterKind.pmdImporter := by
  decide

/-- C3 amended: the import entry point selects the importer by the
regex extension test: a path ending `.pmd` (letters matched
case-insensitively), or ending `.pmd` followed by one final newline
(the dollar anchor's trailing-newline allowance), is handled by the PMD
importer, and every other path is handled by the PMX importer. -/
theorem c3_extension_dispatch (path : List Char) :
    (selectImporter path = ImporterKind.pmdImporter ↔
      ((∃ pre c1 c2 c3 c4, path = pre ++ [c1, c2, c3, c4] ∧ c1.toLower = '.'
          ∧ c2.toLower = 'p' ∧ c3.toLower = 'm' ∧ c4.toLower = 'd')
        ∨ (∃ pre c1 c2 c3 c4 c5, path = pre ++ [c1, c2, c3, c4, c5] ∧ c1.toLower = '.'
          ∧ c2.toLower = 'p' ∧ c3.toLower = 'm' ∧ c4.toLower = 'd'
          ∧ c5.toLower = '\n')))
    ∧ (selectImporter path = ImporterKind.pmxImporter ↔
      ¬ ((∃ pre c1 c2 c3 c4, path = pre ++ [c1, c2, c3, c4] ∧ c1.toLower = '.'
          ∧ c2.toLower = 'p' ∧ c3.toLower = 'm' ∧ c4.toLower = 'd')
        ∨ (∃ pre c1 c2 c3 c4 c5, path = pre ++ [c1, c2, c3, c4, c5] ∧ c1.toLower = '.'
          ∧ c2.toLower = 'p' ∧ c3.toLower = 'm' ∧ c4.toLower = 'd'
          ∧ c5.toLower = '\n'))) := by
  have key : pmdSuffixTest path = true ↔
      ((∃ pre c1 c2 c3 c4, path = pre ++ [c1, c2, c3, c4] ∧ c1.toLower = '.'
          ∧ c2.toLower = 'p' ∧ c3.toLower = 'm' ∧ c4.toLower = 'd')
        ∨ (∃ pre c1 c2 c3 c4 c5, path = pre ++ [c1, c2, c3, c4, c5] ∧ c1.toLower = '.'
          ∧ c2.toLower = 'p' ∧ c3.toLower = 'm' ∧ c4.toLower = 'd'
          ∧ c5.toLower = '\n')) := by
    unfold pmdSuffixTest
    rw [Bool.or_eq_true, pmdSuffix4_iff, pmdSuffix5_iff]
  constructor
  · rw [← key]
    unfold selectImporter
    split_ifs with h <;> simp [h]
  · rw [← key]
    unfold selectImporter
    split_ifs with h <;> simp [h]

/-- One file of a batch import; `malformed` abstracts whether this file's
per-file import raises (e.g. a structurally invalid byte stream). -/
structure MFile where
  name : List Char
  malformed : Bool
  deriving DecidableEq

/-- Observable outcome of `ImportPmx.execute` over a directory batch. -/
structure BatchOutcome where
  imported : List (List Char)
  errorReported : Bool
  failedFile : Option (List Char)
  returnFinished : Bool
  deriving DecidableEq

/-- The `for f in self.files: self._do_execute(context)` loop of
`ImportPmx.execute` (fileio.py lines 171-174): each file either imports
(its model is added to the scene) or raises; an exception escapes the
loop to the surrounding handler, so the files after it are not reached. -/
def importLoop : List MFile → List (List Char) → List (List Char) × Option (List Char)
  | [], done => (done, none)
  | f :: rest, done =>
    if f.malformed then (done, some f.name)
    else importLoop rest (done ++ [f.name])

/-- Embedding of `ImportPmx.execute` (fileio.py lines 168-180): the whole loop runs
inside one try/except; an exception aborts the loop, is reported through
the {"ERROR"} report channel, and the operator still returns
{'FINISHED'}. -/
def importExecute (files : List MFile) : BatchOutcome :=
  match importLoop files [] with
  | (done, none) =>
    { imported := done, errorReported := false, failedFile := none, returnFinished := true }
  | (done, some f) =>
    { imported := done, errorReported := true, failedFile := some f, returnFinished := true }

/-- C2 counterexample: In the batch (a, b, c) where only b is
malformed, the failure of b also prevents the importing of its healthy
sibling c, contradicting the claim that a failure leaves the sibling
files of the batch unaffected. -/
theorem c2_counterexample :
    (importExecute [⟨['a'], false⟩, ⟨['b'], true⟩, ⟨['c'], false⟩]).imported = [['a']]
    ∧ ['c'] ∉ (importExecute [⟨['a'], false⟩, ⟨['b'], true⟩, ⟨['c'], false⟩]).imported
    ∧ (importExecute [⟨['a'], false⟩, ⟨['b'], true⟩, ⟨['c'], false⟩]).errorReported = true := by
  decide

theorem importLoop_firstFailure (pre post : List MFile) (bad : MFile) (acc : List (List Char))
    (hpre : ∀ f ∈ pre, f.malformed = false) (hbad : bad.malformed = true) :
    importLoop (pre ++ bad :: post) acc = (acc ++ pre.map (fun f => f.name), some bad.name) := by
  induction pre generalizing acc with
  | nil => simp [importLoop, hbad]
  | cons f t ih =>
    have hf : f.malformed = false := hpre f (by simp)
    show importLoop (f :: (t ++ bad :: post)) acc = _
    unfold importLoop
    rw [hf]
    simp only [Bool.false_eq_true, if_false]
    rw [ih _ (fun g hg => hpre g (by simp [hg]))]
    simp [List.append_assoc]

/-- C2 amended: When one file of a multi-file batch fails, that
file's operation is aborted, the error is reported through the operator's
{"ERROR"} report channel, and the previously-completed files of the batch
are left untouched — but the remaining files of the batch are skipped:
the single try/except wraps the whole loop, so only the files preceding
the failure are imported. -/
theorem c2_batch_error_handling (pre post : List MFile) (bad : MFile)
    (hpre : ∀ f ∈ pre, f.malformed = false) (hbad : bad.malformed = true) :
    importExecute (pre ++ bad :: post) =
      { imported := pre.map (fun f => f.name), errorReported := true,
        failedFile := some bad.name, returnFinished := true } := by
  unfold importExecute
  rw [importLoop_firstFailure pre post bad [] hpre hbad]
  simp

/-- Closed instance of the amended batch behavior: with (a, bad, c) only
a is imported, the error is reported, and the operator finishes. -/
theorem c2_batch_error_handling_witness :
    importExecute [⟨['a'], false⟩, ⟨['b'], true⟩, ⟨['c'], false⟩] =
      { imported := [['a']], errorReported := true,
        failedFile := some ['b'], returnFinished := true } :=
  c2_batch_error_handling [⟨['a'], false⟩] [⟨['c'], false⟩] ⟨['b'], true⟩
    (by decide) (by decide)

/-- The selectable component flags of `ImportPmx.types` (fileio.py lines
73-92). -/
inductive ImportType
  | mesh
  | armature
  | physics
  | display
  | morphs
  deriving DecidableEq, Fintype

/-- Embedding of `_update_types` (fileio.py lines 46-58): augment the selected flag
set with the flags its items imply — PHYSICS and DISPLAY pull in
ARMATURE, MORPHS pulls in ARMATURE and MESH. -/
def updateTypes (s : Finset ImportType) : Finset ImportType :=
  let s1 := if ImportType.physics ∈ s then insert ImportType.armature s else s
  let s2 := if ImportType.display ∈ s1 then insert ImportType.armature s1 else s1
  if ImportType.morphs ∈ s2 then insert ImportType.mesh (insert ImportType.armature s2) else s2

/-- C9: One application of `_update_types` yields a flag set closed
under the rules PHYSICS→ARMATURE, DISPLAY→ARMATURE and
MORPHS→ARMATURE∧MESH; a second application leaves the set unchanged
(idempotence); and flags present in the input are never removed. -/
theorem c9_update_types_closure (s : Finset ImportType) :
    (ImportType.physics ∈ updateTypes s → ImportType.armature ∈ updateTypes s)
    ∧ (ImportType.display ∈ updateTypes s → ImportType.armature ∈ updateTypes s)
    ∧ (ImportType.morphs ∈ updateTypes s →
        ImportType.armature ∈ updateTypes s ∧ ImportType.mesh ∈ updateTypes s)
    ∧ updateTypes (updateTypes s) = updateTypes s
    ∧ s ⊆ updateTypes s := by
  revert s
  decide

/-- Closed instance of the types-update behavior at the singleton
{PHYSICS}: armature is pulled in, the update is idempotent, and the
input flag survives. -/
theorem c9_update_types_closure_witness :
    ImportType.armature ∈ updateTypes {ImportType.physics}
    ∧ updateTypes (updateTypes {ImportType.physics}) = updateTypes {ImportType.physics}
    ∧ {ImportType.physics} ⊆ updateTypes {ImportType.physics} :=
  ⟨(c9_update_types_closure {ImportType.physics}).1 (by decide),
   (c9_update_types_closure {ImportType.physics}).2.2.2.1,
   (c9_update_types_closure {ImportType.physics}).2.2.2.2⟩

/-- Remove each listed mesh object from the scene, one `erase` per mesh
(the `for mesh in temp_meshes: bpy.data.objects.remove(mesh)` cleanup). -/
def removeEach (scene : List Nat) (meshes : List Nat) : List Nat :=
  meshes.foldl (fun s m => s.erase m) scene

theorem removeEach_nil (scene : List Nat) : removeEach scene [] = scene := rfl

theorem removeEach_append (scene temp : List Nat)
    (hfresh : ∀ m ∈ temp, m ∉ scene) (hnodup : temp.Nodup) :
    removeEach (scene ++ temp) temp = scene := by
  induction temp generalizing scene with
  | nil => simp [removeEach]
  | cons m t ih =>
    show removeEach ((scene ++ m :: t).erase m) t = scene
    rw [List.erase_append_right _ (hfresh m (by simp)), List.erase_cons_head]
    exact ih scene (fun x hx => hfresh x (by simp [hx]))
      (by simpa using hnodup.of_cons)

/-- Environment of one `ExportPmx._do_execute` call (fileio.py lines
547-623): the scene state read on entry and the behavior of the
collaborators the operator calls. -/
structure ExportEnv where
  armFound : Bool
  isBuilt : Bool
  posePosition : List Char
  sceneObjects : List Nat
  curveMeshes : List Nat
  exportCurves : Bool
  exportRaises : Bool
  deriving DecidableEq

/-- Observable trace of one `ExportPmx._do_execute` call. -/
structure ExportTrace where
  cancelled : Bool
  raised : Bool
  exporterInvoked : Bool
  poseDuringExport : List Char
  finalPose : List Char
  finalScene : List Nat
  deriving DecidableEq

/-- Embedding of `ExportPmx._do_execute`: cancel when no armature is found; otherwise
save the pose position and force REST when the model is not built, run
the exporter inside try/finally, and in the finally block remove the
temporary curve meshes and restore the saved pose position (the
restoration is guarded by the truthiness of the saved string). -/
def exportDoExecute (env : ExportEnv) : ExportTrace :=
  if env.armFound = false then
    { cancelled := true, raised := false, exporterInvoked := false,
      poseDuringExport := env.posePosition, finalPose := env.posePosition,
      finalScene := env.sceneObjects }
  else
    let origPose : Option (List Char) :=
      if env.isBuilt = false then some env.posePosition else none
    let duringPose := if env.isBuilt = false then ['R','E','S','T'] else env.posePosition
    let temp := if env.exportCurves then env.curveMeshes else []
    let sceneFinal := removeEach (env.sceneObjects ++ temp) temp
    let restoredPose :=
      match origPose with
      | some saved => if saved ≠ [] then saved else duringPose
      | none => duringPose
    { cancelled := false, raised := env.exportRaises, exporterInvoked := true,
      poseDuringExport := duringPose, finalPose := restoredPose,
      finalScene := sceneFinal }

/-- Environment of one `ExportPmxQuick.execute` call (fileio.py lines
717-812). -/
structure QuickEnv where
  lastFilepath : List Char
  rootFound : Bool
  armFound : Bool
  isBuilt : Bool
  posePosition : List Char
  sceneObjects : List Nat
  curveMeshes : List Nat
  exportCurves : Bool
  exportRaises : Bool
  deriving DecidableEq

/-- Observable trace of one `ExportPmxQuick.execute` call. -/
structure QuickTrace where
  cancelled : Bool
  errorReported : Bool
  exporterInvoked : Bool
  fileWritten : Bool
  poseDuringExport : List Char
  finalPose : List Char
  finalScene : List Nat
  deriving DecidableEq

/-- Embedding of `ExportPmxQuick.execute`: report an error and return {'CANCELLED'}
when the scene stores no last-export filepath, when no MMD root is found
for the active object, or when the root has no armature; otherwise run
the same pose-position and temporary-mesh discipline as the regular
export, the outer except turning an exporter exception into an error
report and a {'CANCELLED'} return after the finally block has cleaned
up. -/
def exportPmxQuick (env : QuickEnv) : QuickTrace :=
  if env.lastFilepath = [] then
    { cancelled := true, errorReported := true, exporterInvoked := false, fileWritten := false,
      poseDuringExport := env.posePosition, finalPose := env.posePosition,
      finalScene := env.sceneObjects }
  else if env.rootFound = false then
    { cancelled := true, errorReported := true, exporterInvoked := false, fileWritten := false,
      poseDuringExport := env.posePosition, finalPose := env.posePosition,
      finalScene := env.sceneObjects }
  else if env.armFound = false then
    { cancelled := true, errorReported := true, exporterInvoked := false, fileWritten := false,
      poseDuringExport := env.posePosition, finalPose := env.posePosition,
      finalScene := env.sceneObjects }
  else
    let origPose : Option (List Char) :=
      if env.isBuilt = false then some env.posePosition else none
    let duringPose := if env.isBuilt = false then ['R','E','S','T'] else env.posePosition
    let temp := if env.exportCurves then env.curveMeshes else []
    let sceneFinal := removeEach (env.sceneObjects ++ temp) temp
    let restoredPose :=
      match origPose with
      | some saved => if saved ≠ [] then saved else duringPose
      | none => duringPose
    { cancelled := env.exportRaises, errorReported := env.exportRaises,
      exporterInvoked := true, fileWritten := !env.exportRaises,
      poseDuringExport := duringPose, finalPose := restoredPose,
      finalScene := sceneFinal }

/-- C8: For every export run of `ExportPmx._do_execute` and of
`ExportPmxQuick.execute`: when the model is not built, the armature's
pose position is set to REST for the export and restored to its original
value on every exit path (the restoration lives in the finally block, so
it also runs when the exporter raises); when the model is built, the pose
position is never modified; and the temporary curve-converted meshes are
removed from the scene on every exit path. -/
theorem c8_pose_position_discipline (env : ExportEnv) (qenv : QuickEnv)
    (hp : env.posePosition = ['P','O','S','E'] ∨ env.posePosition = ['R','E','S','T'])
    (hfresh : ∀ m ∈ env.curveMeshes, m ∉ env.sceneObjects)
    (hnodup : env.curveMeshes.Nodup)
    (hqp : qenv.posePosition = ['P','O','S','E'] ∨ qenv.posePosition = ['R','E','S','T'])
    (hqfresh : ∀ m ∈ qenv.curveMeshes, m ∉ qenv.sceneObjects)
    (hqnodup : qenv.curveMeshes.Nodup) :
    ((exportDoExecute env).finalPose = env.posePosition
     ∧ (env.isBuilt = false → env.armFound = true →
         (exportDoExecute env).poseDuringExport = ['R','E','S','T'])
     ∧ (env.isBuilt = true → (exportDoExecute env).poseDuringExport = env.posePosition)
     ∧ (exportDoExecute env).finalScene = env.sceneObjects)
    ∧ ((exportPmxQuick qenv).finalPose = qenv.posePosition
     ∧ (qenv.isBuilt = false → qenv.lastFilepath ≠ [] → qenv.rootFound = true →
         qenv.armFound = true → (exportPmxQuick qenv).poseDuringExport = ['R','E','S','T'])
     ∧ (qenv.isBuilt = true → (exportPmxQuick qenv).poseDuringExport = qenv.posePosition)
     ∧ (exportPmxQuick qenv).finalScene = qenv.sceneObjects) := by
  have hne : env.posePosition ≠ [] := by
    rcases hp with h | h <;> simp [h]
  have hqne : qenv.posePosition ≠ [] := by
    rcases hqp with h | h <;> simp [h]
  have hclean : removeEach (env.sceneObjects ++ env.curveMeshes) env.curveMeshes
      = env.sceneObjects := removeEach_append _ _ hfresh hnodup
  have hclean0 : removeEach (env.sceneObjects ++ ([] : List Nat)) [] = env.sceneObjects := by
    simp [removeEach]
  have hqclean : removeEach (qenv.sceneObjects ++ qenv.curveMeshes) qenv.curveMeshes
      = qenv.sceneObjects := removeEach_append _ _ hqfresh hqnodup
  have hqclean0 : removeEach (qenv.sceneObjects ++ ([] : List Nat)) [] = qenv.sceneObjects := by
    simp [removeEach]
  constructor
  · cases harm : env.armFound <;> cases hib : env.isBuilt <;> cases hec : env.exportCurves <;>
      simp [exportDoExecute, harm, hib, hec, hne, hclean, hclean0, removeEach_nil]
  · by_cases hlf : qenv.lastFilepath = [] <;>
      cases hroot : qenv.rootFound <;> cases harm : qenv.armFound <;>
      cases hib : qenv.isBuilt <;> cases hec : qenv.exportCurves <;>
      simp [exportPmxQuick, hlf, hroot, harm, hib, hec, hqne, hqclean, hqclean0,
        removeEach_nil]

/-- A sample regular-export environment: unbuilt model, POSE position,
one temporary curve mesh, exporter raising. -/
def exportEnvSample : ExportEnv :=
  { armFound := true, isBuilt := false, posePosition := ['P','O','S','E'],
    sceneObjects := [1, 2], curveMeshes := [5], exportCurves := true, exportRaises := true }

/-- A sample quick-export environment mirroring `exportEnvSample`. -/
def quickEnvSample : QuickEnv :=
  { lastFilepath := ['f'], rootFound := true, armFound := true, isBuilt := false,
    posePosition := ['P','O','S','E'], sceneObjects := [1, 2], curveMeshes := [5],
    exportCurves := true, exportRaises := true }

/-- Closed instance of the pose discipline: even though the exporter
raises, the pose is REST during the export, restored to POSE afterwards,
and the temporary mesh is gone — in both operators. -/
theorem c8_pose_position_discipline_witness :
    (exportDoExecute exportEnvSample).finalPose = ['P','O','S','E']
    ∧ (exportDoExecute exportEnvSample).poseDuringExport = ['R','E','S','T']
    ∧ (exportDoExecute exportEnvSample).finalScene = [1, 2]
    ∧ (exportPmxQuick quickEnvSample).finalPose = ['P','O','S','E']
    ∧ (exportPmxQuick quickEnvSample).finalScene = [1, 2] := by
  have h := c8_pose_position_discipline exportEnvSample quickEnvSample
    (Or.inl rfl) (by decide) (by decide) (Or.inl rfl) (by decide) (by decide)
  exact ⟨h.1.1, h.1.2.1 rfl rfl, h.1.2.2.2, h.2.1, h.2.2.2.2⟩

/-- C10: `ExportPmxQuick.execute` returns {'CANCELLED'} and reports
an error, without invoking the PMX exporter, whenever the scene stores no
last-export filepath or no MMD root object is found; the exporter is
invoked and a file written only when both preconditions hold. -/
theorem c10_quick_export_guards (env : QuickEnv) :
    (env.lastFilepath = [] ∨ env.rootFound = false →
      (exportPmxQuick env).cancelled = true
      ∧ (exportPmxQuick env).errorReported = true
      ∧ (exportPmxQuick env).exporterInvoked = false
      ∧ (exportPmxQuick env).fileWritten = false)
    ∧ ((exportPmxQuick env).exporterInvoked = true →
      env.lastFilepath ≠ [] ∧ env.rootFound = true)
    ∧ ((exportPmxQuick env).fileWritten = true →
      env.lastFilepath ≠ [] ∧ env.rootFound = true) := by
  by_cases hlf : env.lastFilepath = [] <;>
    cases hroot : env.rootFound <;> cases harm : env.armFound <;>
    simp [exportPmxQuick, hlf, hroot, harm]

/-- A quick-export environment with no stored last-export filepath. -/
def quickEnvNoPath : QuickEnv :=
  { lastFilepath := [], rootFound := true, armFound := true, isBuilt := true,
    posePosition := ['P'], sceneObjects := [], curveMeshes := [],
    exportCurves := true, exportRaises := false }

/-- Closed instance of the quick-export guards: with no stored filepath
the operator cancels with an error and never reaches the exporter. -/
theorem c10_quick_export_guards_witness :
    (exportPmxQuick quickEnvNoPath).cancelled = true
    ∧ (exportPmxQuick quickEnvNoPath).exporterInvoked = false := by
  have h := (c10_quick_export_guards quickEnvNoPath).1 (Or.inl rfl)
  exact ⟨h.1, h.2.2.1⟩

/-- A small but complete sample document: 3 bones (root→spine→head),
4 vertices weighted to "spine", one vertex morph, one texture, one
material, a display frame, a rigid body and a joint. -/
def sampleDoc : ModelDocument :=
  { version := (2, 1)
    encoding := 0
    name := [77, 111, 100, 101, 108]
    nameE := [77]
    comment := [67]
    commentE := []
    vertices := [
      { position := ((0, 1), (0, 1), (0, 1)), normal := ((0, 1), (1, 1), (0, 1)),
        uv := ((0, 1), (0, 1)), weights := [(1, (1, 1))], edgeScale := (1, 1) },
      { position := ((1, 1), (0, 1), (0, 1)), normal := ((0, 1), (1, 1), (0, 1)),
        uv := ((1, 2), (0, 1)), weights := [(1, (1, 2)), (2, (1, 2))], edgeScale := (1, 1) },
      { position := ((0, 1), (1, 1), (0, 1)), normal := ((0, 1), (1, 1), (0, 1)),
        uv := ((0, 1), (1, 2)), weights := [(1, (1, 1))], edgeScale := (1, 1) },
      { position := ((1, 1), (1, 1), (0, 1)), normal := ((0, 1), (1, 1), (0, 1)),
        uv := ((1, 2), (1, 2)), weights := [(1, (3, 4)), (0, (1, 4))], edgeScale := (1, 1) } ]
    faces := [(0, 1, 2), (1, 2, 3)]
    textures := [[116, 46, 112, 110, 103]]
    materials := [
      { name := [109], nameE := [], diffuse := ((1, 1), (1, 1), (1, 1), (1, 1)),
        specular := ((0, 1), (0, 1), (0, 1)), edgeSize := (1, 1), texture := 0,
        sphereTexture := -1, sphereMode := 0, toon := -1, faceCount := 2 } ]
    bones := [
      { name := [114], nameE := [], position := ((0, 1), (0, 1), (0, 1)),
        parent := -1, transformOrder := 0, flags := 0 },
      { name := [115], nameE := [], position := ((0, 1), (1, 1), (0, 1)),
        parent := 0, transformOrder := 0, flags := 0 },
      { name := [104], nameE := [], position := ((0, 1), (2, 1), (0, 1)),
        parent := 1, transformOrder := 0, flags := 0 } ]
    morphs := [
      { name := [118], nameE := [], category := 1,
        offsets := [(0, ((0, 1), (0, 1), (1, 1)))] } ]
    displayFrames := [{ name := [100], nameE := [], items := [0, 1, 2] }]
    rigidBodies := [
      { name := [98], nameE := [], bone := 1, shape := 0,
        size := ((1, 1), (1, 1), (1, 1)), mass := (1, 1) } ]
    joints := [{ name := [106], nameE := [], rigidA := 0, rigidB := 0 }] }

/-- Closed instance of the round-trip: the sample document is valid, and
serializing then parsing it returns its renormalized form, equal
field-for-field up to weights, with every weight sum equal to 1 within
1e-6. -/
theorem c1_serialize_parse_roundtrip_witness :
    validModelDocument sampleDoc = true
    ∧ (parseModel (serializeModel sampleDoc) = some (renormDoc sampleDoc)
       ∧ eraseWeights (renormDoc sampleDoc) = eraseWeights sampleDoc
       ∧ ∀ v ∈ (renormDoc sampleDoc).vertices, |wsumQ v.weights - 1| ≤ 1 / 1000000) :=
  ⟨by decide, c1_serialize_parse_roundtrip sampleDoc (by decide)⟩

/-- A two-bone document whose parent graph is the 2-cycle 0 ↔ 1. -/
def cyclicBones : List PBone :=
  [ { name := [97], nameE := [], position := ((0, 1), (0, 1), (0, 1)), parent := 1,
      transformOrder := 0, flags := 0 },
    { name := [98], nameE := [], position := ((0, 1), (0, 1), (0, 1)), parent := 0,
      transformOrder := 0, flags := 0 } ]

/-- Closed instance of cycle rejection: importing the 2-cycle leaves the
scene with zero bones and surfaces `InvalidBoneHierarchy`. -/
theorem c4_cycle_rejection_witness :
    runBoneImport cyclicBones { bones := [] }
      = ({ bones := [] }, some ImportError.invalidBoneHierarchy)
    ∧ detectCycle cyclicBones = true :=
  c4_cycle_rejection cyclicBones { bones := [] } 0 2 (by omega) (by decide)

/-- Sample weight list: two regular weights and one lying below the
epsilon of the import. -/
def sampleWeights : List (Int × Scalar) := [(0, (1, 2)), (1, (1, 3)), (2, (1, 10000000))]

/-- Closed instance of the weight asymmetry at the sample weights. -/
theorem c5_weight_asymmetry_witness :
    (importVertexWeights sampleWeights).Sublist sampleWeights
    ∧ (∀ p ∈ sampleWeights,
        (p ∈ importVertexWeights sampleWeights ↔ 1 / 1000000 ≤ scalarVal p.2))
    ∧ wsumQ (renormWeights sampleWeights) = 1 :=
  c5_weight_asymmetry sampleWeights (by decide) (by decide)

/-- Closed boundary instances of width minimality at the table sizes
127, 128, 32767 and 32768. -/
theorem c6_index_width_minimality_witness :
    reprW (chooseWidth (127 - 1)) (((127 : Nat) : Int) - 1) = true
    ∧ reprW (chooseWidth (128 - 1)) (((128 : Nat) : Int) - 1) = true
    ∧ reprW (chooseWidth (32767 - 1)) (((32767 : Nat) : Int) - 1) = true
    ∧ reprW (chooseWidth (32768 - 1)) (((32768 : Nat) : Int) - 1) = true
    ∧ chooseWidth (127 - 1) = 1 ∧ chooseWidth (128 - 1) = 1
    ∧ chooseWidth (32767 - 1) = 2 ∧ chooseWidth (32768 - 1) = 2 :=
  ⟨(c6_index_width_minimality 127 (by norm_num)).2.1,
   (c6_index_width_minimality 128 (by norm_num)).2.1,
   (c6_index_width_minimality 32767 (by norm_num)).2.1,
   (c6_index_width_minimality 32768 (by norm_num)).2.1,
   by decide, by decide, by decide, by decide⟩
